import Mathlib

/-!
# ARP/RARP dissector (`packet-arp.c`): embedding and properties

The C routines of `packet-arp.c` are embedded as pure functions.

* Packet memory is a total map `Mem` from addresses (relative to the pointer
  `pd`) to bytes.  `dissect_arp` receives no buffer length, so the model
  receives none either; every address the code dereferences is recorded in a
  read trace, and statements about the captured length are statements about
  that trace.
* C strings are lists of characters (the text before the terminating NUL).
* The function-local `static` variables of `arpaddr_to_str` (three buffers and
  the rotating pointer `cur`) are an explicit state `ArpAddrStatic` threaded
  through every call; a returned `gchar *` is a `StrRef`, and is dereferenced
  only where the C code reads the characters.
-/

namespace Arp

/-! ## Memory and strings -/

/-- Packet memory, addressed relative to the pointer `pd`. -/
abbrev Mem := Nat → Nat

/-- A C string: the characters before the terminating NUL. -/
abbrev CStr := List Char

/-- The expression `pd[i]` for `const u_char *pd`: one octet. -/
def rd (pd : Mem) (i : Nat) : Nat := pd i % 256

/-- The octets `pd[ad], ..., pd[ad + n - 1]`. -/
def bytesAt (pd : Mem) (ad n : Nat) : List Nat :=
  (List.range n).map (fun i => rd pd (ad + i))

/-- The addresses `ad, ..., ad + n - 1`. -/
def addrRange (ad n : Nat) : List Nat :=
  (List.range n).map (fun i => ad + i)

/-! ## Constants -/

/-- Hardware type of Ethernet. -/
def ARPHRD_ETHER : Nat := 1

/-- Max string length for displaying unknown type of ARP address. -/
def MAX_ADDR_STR_LEN : Nat := 16

/-- Offset of the hardware type within an ARP packet. -/
def AR_HRD : Nat := 0

/-- Offset of the protocol type. -/
def AR_PRO : Nat := 2

/-- Offset of the hardware address length. -/
def AR_HLN : Nat := 4

/-- Offset of the protocol address length. -/
def AR_PLN : Nat := 5

/-- Offset of the opcode. -/
def AR_OP : Nat := 6

/-- Modelled from the spec: `ETHERTYPE_IP` is defined in `etypes.h`, which is
not among the sources; the spec gives the IPv4 ethertype as 0x0800. -/
def ETHERTYPE_IP : Nat := 0x0800

/-- Modelled from the spec: the `ARPOP_*` opcodes are defined in `packet.h`,
which is not among the sources; the spec numbers them request 1, reply 2,
reverse-request 3, reverse-reply 4. -/
def ARPOP_REQUEST : Nat := 1

/-- Modelled from the spec: opcode of an ARP reply (`packet.h`). -/
def ARPOP_REPLY : Nat := 2

/-- Modelled from the spec: opcode of a reverse-ARP request (`packet.h`). -/
def ARPOP_RREQUEST : Nat := 3

/-- Modelled from the spec: opcode of a reverse-ARP reply (`packet.h`). -/
def ARPOP_RREPLY : Nat := 4

/-! ## printf conversions used by the dissector -/

/-- The conversion `%d` of a non-negative value. -/
def fmt_d (v : Nat) : CStr := Nat.toDigits 10 v

/-- The conversion `%0Wx`: lowercase hexadecimal, zero-padded to width `w`. -/
def fmt_0x (w v : Nat) : CStr :=
  let ds := Nat.toDigits 16 v
  List.replicate (w - ds.length) '0' ++ ds

/-! ## `arpaddr_to_str` -/

/-- The table `hex[16]` of `arpaddr_to_str`. -/
def hex : List Char :=
  ['0', '1', '2', '3', '4', '5', '6', '7', '8', '9', 'A', 'B', 'C', 'D', 'E', 'F']

/-- The table lookup `hex[i]`. -/
def hexAt (i : Nat) : Char := hex.getD i '0'

/-- One of the three static buffers `str[0]`, `str[1]`, `str[2]`. -/
inductive BufIx where
  | b0
  | b1
  | b2
  deriving DecidableEq, Repr

/-- The static variables of `arpaddr_to_str`: the contents of `str[3][20]` and
the pointer `cur` (`none` is the initial NULL, `some i` is `&str[i][0]`). -/
structure ArpAddrStatic where
  str0 : CStr
  str1 : CStr
  str2 : CStr
  cur : Option BufIx
  deriving DecidableEq, Repr

/-- The state of the statics at program start (zero-initialised). -/
def ArpAddrStatic.init : ArpAddrStatic := ⟨[], [], [], none⟩

/-- The string currently held in buffer `i`. -/
def ArpAddrStatic.get (st : ArpAddrStatic) : BufIx → CStr
  | .b0 => st.str0
  | .b1 => st.str1
  | .b2 => st.str2

/-- Overwrite buffer `i` and leave `cur` pointing at it. -/
def ArpAddrStatic.put (st : ArpAddrStatic) (i : BufIx) (s : CStr) : ArpAddrStatic :=
  match i with
  | .b0 => { st with str0 := s, cur := some .b0 }
  | .b1 => { st with str1 := s, cur := some .b1 }
  | .b2 => { st with str2 := s, cur := some .b2 }

/-- The rotation at the head of `arpaddr_to_str`:
`str[0] → str[1]`, `str[1] → str[2]`, anything else `→ str[0]`. -/
def nextBuf : Option BufIx → BufIx
  | some .b0 => .b1
  | some .b1 => .b2
  | _ => .b0

/-- State of the `while` loop of `arpaddr_to_str`. -/
structure LoopState where
  out : CStr
  ad : Nat
  ad_len : Nat
  len : Int
  reads : List Nat
  deriving DecidableEq, Repr

/-- The loop `while (ad_len > 0 && len > 0) { ... }`, by recursion on `ad_len`,
which decreases on every iteration. The result is the state at loop exit. -/
def arpaddr_loop (pd : Mem) : (ad_len : Nat) → (ad : Nat) → (len : Int) → (out : CStr) →
    (reads : List Nat) → LoopState
  | 0, ad, len, out, reads => ⟨out, ad, 0, len, reads⟩
  | n + 1, ad, len, out, reads =>
    if 0 < len then
      arpaddr_loop pd n (ad + 1) (len - 2)
        (out ++ [hexAt (rd pd ad / 16), hexAt (rd pd ad % 16)]) (reads ++ [ad])
    else ⟨out, ad, n + 1, len, reads⟩

/-- The characters `arpaddr_to_str` writes to the buffer it selects, and the
addresses it reads while doing so. -/
def arpaddr_chars (pd : Mem) (ad ad_len : Nat) : CStr × List Nat :=
  let s := arpaddr_loop pd ad_len ad MAX_ADDR_STR_LEN [] []
  (if s.ad_len ≠ 0 then s.out ++ ['.', '.', '.'] else s.out, s.reads)

/-- A returned `gchar *`: a pointer into one of the static buffers of
`arpaddr_to_str`, or a string owned by another formatter. -/
inductive StrRef where
  | buf (i : BufIx)
  | val (s : CStr)
  deriving DecidableEq, Repr

/-- Read the characters a `gchar *` points at, in the given static state. -/
def StrRef.deref (st : ArpAddrStatic) : StrRef → CStr
  | .buf i => st.get i
  | .val s => s

/-- Result of a formatting call: the statics afterwards, the returned pointer
and the addresses read. -/
structure FmtResult where
  st : ArpAddrStatic
  ref : StrRef
  reads : List Nat
  deriving DecidableEq, Repr

/-- The function `arpaddr_to_str(ad, ad_len)`. -/
def arpaddr_to_str (st : ArpAddrStatic) (pd : Mem) (ad ad_len : Nat) : FmtResult :=
  let cur := nextBuf st.cur
  let r := arpaddr_chars pd ad ad_len
  ⟨st.put cur r.1, .buf cur, r.2⟩


/-! ## Formatters declared outside `packet-arp.c` -/

/-- Modelled from the spec: `ether_to_str` is declared in `packet.h` and is not
among the sources. The spec describes the canonical rendering of a 6-octet
link address: six two-digit hex octets joined by five colon separators. -/
def ether_to_str (pd : Mem) (ad : Nat) : CStr :=
  fmt_0x 2 (rd pd ad) ++ [':'] ++ fmt_0x 2 (rd pd (ad + 1)) ++ [':'] ++
  fmt_0x 2 (rd pd (ad + 2)) ++ [':'] ++ fmt_0x 2 (rd pd (ad + 3)) ++ [':'] ++
  fmt_0x 2 (rd pd (ad + 4)) ++ [':'] ++ fmt_0x 2 (rd pd (ad + 5))

/-- Modelled from the spec: `ip_to_str` is declared in `packet.h` and is not
among the sources. The spec describes the dotted-decimal rendering of the
four octets of an IPv4 address. -/
def ip_to_str (pd : Mem) (ad : Nat) : CStr :=
  fmt_d (rd pd ad) ++ ['.'] ++ fmt_d (rd pd (ad + 1)) ++ ['.'] ++
  fmt_d (rd pd (ad + 2)) ++ ['.'] ++ fmt_d (rd pd (ad + 3))

/-- The function `arphrdaddr_to_str(ad, ad_len, type)`. -/
def arphrdaddr_to_str (st : ArpAddrStatic) (pd : Mem) (ad ad_len type : Nat) : FmtResult :=
  if type = ARPHRD_ETHER ∧ ad_len = 6 then
    ⟨st, .val (ether_to_str pd ad), addrRange ad 6⟩
  else arpaddr_to_str st pd ad ad_len

/-- The function `arpproaddr_to_str(ad, ad_len, type)`. -/
def arpproaddr_to_str (st : ArpAddrStatic) (pd : Mem) (ad ad_len type : Nat) : FmtResult :=
  if type = ETHERTYPE_IP ∧ ad_len = 4 then
    ⟨st, .val (ip_to_str pd ad), addrRange ad 4⟩
  else arpaddr_to_str st pd ad ad_len

/-! ## Label tables -/

/-- A `value_string` table, without its `{0, NULL}` terminator. -/
abbrev value_string := List (Nat × CStr)

/-- Modelled from the spec: `match_strval` is declared in `packet.h` and is not
among the sources. The spec describes a table lookup returning the label of
the first entry with the given code, and nothing when no entry matches. -/
def match_strval (val : Nat) : value_string → Option CStr
  | [] => none
  | (v, s) :: vs => if v = val then some s else match_strval val vs

/-- Modelled from the spec: `val_to_str` is declared in `packet.h` and is not
among the sources. A code without a label renders through the fallback
format, here always of the shape `prefix 0x%04x suffix`. -/
def val_to_str (val : Nat) (vs : value_string) (pre post : CStr) : CStr :=
  match match_strval val vs with
  | some s => s
  | none => pre ++ fmt_0x 4 val ++ post

/-- The table `op_vals` of `dissect_arp`. -/
def op_vals : value_string :=
  [(ARPOP_REQUEST, "ARP request".toList),
   (ARPOP_REPLY, "ARP reply".toList),
   (ARPOP_RREQUEST, "RARP request".toList),
   (ARPOP_RREPLY, "RARP reply".toList)]

/-- The table `hrd_vals` of `dissect_arp`. -/
def hrd_vals : value_string :=
  [(0, "NET/ROM pseudo".toList),
   (1, "Ethernet".toList),
   (2, "Experimental Ethernet".toList),
   (3, "AX.25".toList),
   (4, "ProNET".toList),
   (5, "Chaos".toList),
   (6, "IEEE 802".toList),
   (7, "ARCNET".toList),
   (8, "Hyperchannel".toList),
   (9, "Lanstar".toList),
   (10, "Autonet Short Address".toList),
   (11, "Localtalk".toList),
   (12, "LocalNet".toList),
   (13, "Ultra link".toList),
   (14, "SMDS".toList),
   (15, "Frame Relay DLCI".toList),
   (16, "ATM".toList),
   (17, "HDLC".toList),
   (18, "Fibre Channel".toList),
   (19, "ATM (RFC 2225)".toList),
   (20, "Serial Line".toList),
   (21, "ATM".toList),
   (22, "MIL-STD-188-220".toList),
   (23, "Metricom STRIP".toList),
   (24, "IEEE 1394.1995".toList),
   (25, "MAPOS".toList),
   (26, "Twinaxial".toList),
   (27, "EUI-64".toList)]

/-! ## Protocol tree and columns -/

/-- An item of the protocol tree, as created by `add_item_to_tree`: a byte
range, the label text, and the items of the subtree attached to it by
`add_subtree` (empty for a leaf). -/
inductive proto_item where
  | mk (start : Nat) (len : Nat) (text : CStr) (subtree : List proto_item)

/-- A `GtkTree`: its items in insertion order. -/
abbrev GtkTree := List proto_item

/-- Start of the item's byte range. -/
def proto_item.start : proto_item → Nat
  | .mk s _ _ _ => s

/-- Length of the item's byte range. -/
def proto_item.len : proto_item → Nat
  | .mk _ l _ _ => l

/-- Label text of the item. -/
def proto_item.text : proto_item → CStr
  | .mk _ _ t _ => t

/-- Items of the subtree attached to the item. -/
def proto_item.subtree : proto_item → GtkTree
  | .mk _ _ _ c => c

/-- The end of an item's byte range (exclusive). -/
def proto_item.stop (i : proto_item) : Nat := i.start + i.len

/-- A leaf created by `add_item_to_tree(tree, start, len, text)`. -/
def leaf (start len : Nat) (text : CStr) : proto_item := .mk start len text []

/-- The part of `frame_data` the dissector touches: which columns are in use
(`check_col`) and their current text (`col_add_str`, `col_add_fstr`
overwrite it). -/
structure frame_data where
  use_protocol : Bool
  use_info : Bool
  col_protocol : CStr
  col_info : CStr
  deriving DecidableEq, Repr

/-- Modelled from the spec: `pntohs` is a helper of `packet.h`, which is not
among the sources; it reads a 16-bit big-endian value at an address. -/
def pntohs (pd : Mem) (i : Nat) : Nat := 256 * rd pd i + rd pd (i + 1)

/-- Modelled from the spec: `ethertype_to_str` is declared in `packet.h` and is
not among the sources; it resolves an ethertype against a label table and
falls back to the given format. The table itself is a parameter. -/
def ethertype_to_str (etype_vals : value_string) (etype : Nat) (pre post : CStr) : CStr :=
  val_to_str etype etype_vals pre post

/-! ## `dissect_arp` -/

/-- What a call of `dissect_arp` leaves behind: the statics of
`arpaddr_to_str`, the columns, the tree (when one was passed) and the
addresses of `pd` that were dereferenced, in order. -/
structure DissectResult where
  st : ArpAddrStatic
  fd : frame_data
  tree : Option GtkTree
  reads : List Nat

/-- The text written to `COL_PROTOCOL`. -/
def protocol_text (ar_op : Nat) : CStr :=
  match match_strval ar_op op_vals with
  | some op_str => op_str
  | none => "ARP".toList

/-- The text written to `COL_INFO` by the `switch (ar_op)`. -/
def info_text (ar_op : Nat) (sha_str spa_str tha_str tpa_str : CStr) : CStr :=
  if ar_op = ARPOP_REQUEST then
    "Who has ".toList ++ tpa_str ++ "?  Tell ".toList ++ spa_str
  else if ar_op = ARPOP_REPLY then
    spa_str ++ " is at ".toList ++ sha_str
  else if ar_op = ARPOP_RREQUEST then
    "Who is ".toList ++ tha_str ++ "?  Tell ".toList ++ sha_str
  else if ar_op = ARPOP_RREPLY then
    sha_str ++ " is at ".toList ++ spa_str
  else
    "Unknown ARP opcode 0x".toList ++ fmt_0x 4 ar_op

/-- The item `ti` and its subtree `arp_tree`, as built in the `if (tree)` block. -/
def arp_item (etype_vals : value_string) (offset ar_hrd ar_pro ar_hln ar_pln ar_op : Nat)
    (sha_offset spa_offset tha_offset tpa_offset : Nat)
    (sha_str spa_str tha_str tpa_str : CStr) : proto_item :=
  let op_str := match_strval ar_op op_vals
  let ti_text := match op_str with
    | some s => s
    | none => "Unknown ARP (opcode 0x".toList ++ fmt_0x 4 ar_op ++ ")".toList
  let arp_tree : GtkTree :=
    [ leaf (offset + AR_HRD) 2
        ("Hardware type: ".toList ++
          val_to_str ar_hrd hrd_vals "Unknown (0x".toList ")".toList),
      leaf (offset + AR_PRO) 2
        ("Protocol type: ".toList ++
          ethertype_to_str etype_vals ar_pro "Unknown (0x".toList ")".toList),
      leaf (offset + AR_HLN) 1 ("Hardware size: ".toList ++ fmt_d ar_hln),
      leaf (offset + AR_PLN) 1 ("Protocol size: ".toList ++ fmt_d ar_pln),
      leaf (offset + AR_OP) 2
        ("Opcode: 0x".toList ++ fmt_0x 4 ar_op ++ " (".toList ++
          (match op_str with
            | some s => s
            | none => "Unknown".toList) ++ ")".toList),
      leaf sha_offset ar_hln ("Sender hardware address: ".toList ++ sha_str),
      leaf spa_offset ar_pln ("Sender protocol address: ".toList ++ spa_str),
      leaf tha_offset ar_hln ("Target hardware address: ".toList ++ tha_str),
      leaf tpa_offset ar_pln ("Target protocol address: ".toList ++ tpa_str) ]
  .mk offset (8 + 2 * ar_hln + 2 * ar_pln) ti_text arp_tree

/-- The function `dissect_arp(pd, offset, fd, tree)`. The statics of
`arpaddr_to_str` at entry are `st`; `tree` is `none` for a NULL tree. The four
address strings are pointers; their characters are read where the C code
reads them, after all four formatting calls have returned. -/
def dissect_arp (etype_vals : value_string) (st : ArpAddrStatic) (pd : Mem) (offset : Nat)
    (fd : frame_data) (tree : Option GtkTree) : DissectResult :=
  let ar_hrd := pntohs pd (offset + AR_HRD)
  let ar_pro := pntohs pd (offset + AR_PRO)
  let ar_hln := rd pd (offset + AR_HLN)
  let ar_pln := rd pd (offset + AR_PLN)
  let ar_op := pntohs pd (offset + AR_OP)
  let hdr_reads := addrRange offset 8
  -- Extract the addresses.
  let sha_offset := offset + 8
  let sha := arphrdaddr_to_str st pd sha_offset ar_hln ar_hrd
  let spa_offset := sha_offset + ar_hln
  let spa := arpproaddr_to_str sha.st pd spa_offset ar_pln ar_pro
  let tha_offset := spa_offset + ar_pln
  let tha := arphrdaddr_to_str spa.st pd tha_offset ar_hln ar_hrd
  let tpa_offset := tha_offset + ar_hln
  let tpa := arpproaddr_to_str tha.st pd tpa_offset ar_pln ar_pro
  let st4 := tpa.st
  let sha_str := sha.ref.deref st4
  let spa_str := spa.ref.deref st4
  let tha_str := tha.ref.deref st4
  let tpa_str := tpa.ref.deref st4
  let fd1 := if fd.use_protocol then { fd with col_protocol := protocol_text ar_op } else fd
  let fd2 := if fd1.use_info then
      { fd1 with col_info := info_text ar_op sha_str spa_str tha_str tpa_str }
    else fd1
  let tree2 := tree.map (fun t => t ++
    [arp_item etype_vals offset ar_hrd ar_pro ar_hln ar_pln ar_op
      sha_offset spa_offset tha_offset tpa_offset sha_str spa_str tha_str tpa_str])
  ⟨st4, fd2, tree2, hdr_reads ++ sha.reads ++ spa.reads ++ tha.reads ++ tpa.reads⟩

/-! ## Sample packets -/

/-- Memory holding exactly the given octets from address 0 on, zero elsewhere. -/
def memOf (bs : List Nat) : Mem := fun i => bs.getD i 0

/-- A frame with both columns in use and empty. -/
def fd0 : frame_data := ⟨true, true, [], []⟩

/-- The 28-octet Ethernet/IPv4 request
`0001 0800 06 04 0001`, sender 00:11:22:33:44:55 at 192.168.1.10, target
00:00:00:00:00:00 at 192.168.1.1. -/
def pkt_request : List Nat :=
  [0x00, 0x01, 0x08, 0x00, 0x06, 0x04, 0x00, 0x01,
   0x00, 0x11, 0x22, 0x33, 0x44, 0x55, 192, 168, 1, 10,
   0, 0, 0, 0, 0, 0, 192, 168, 1, 1]

/-- A reverse-request (opcode 3) with hardware type 0, protocol type 0 and
one-octet addresses AA, BB, CC, DD: all four go to the generic formatter. -/
def pkt_generic : List Nat :=
  [0x00, 0x00, 0x00, 0x00, 0x01, 0x01, 0x00, 0x03, 0xAA, 0xBB, 0xCC, 0xDD]

/-- Memory holding the given octets from address 0 on and `rest` beyond them:
a captured buffer followed by whatever lies after it. -/
def memWith (bs : List Nat) (rest : Mem) : Mem :=
  fun i => if i < bs.length then bs.getD i 0 else rest i

/-- The same request cut after the sender addresses (18 octets captured):
the header is complete, both target addresses lie beyond the buffer. -/
def pkt_cut : List Nat :=
  [0x00, 0x01, 0x08, 0x00, 0x06, 0x04, 0x00, 0x01,
   0x00, 0x11, 0x22, 0x33, 0x44, 0x55, 192, 168, 1, 10]

/-- An Ethernet/IPv4 reverse-request (opcode 3). -/
def pkt_rarp : List Nat :=
  [0x00, 0x01, 0x08, 0x00, 0x06, 0x04, 0x00, 0x03,
   0x00, 0x11, 0x22, 0x33, 0x44, 0x55, 192, 168, 1, 10,
   0x66, 0x77, 0x88, 0x99, 0xAA, 0xBB, 192, 168, 1, 1]

/-- Sixteen octets 00, 01, ..., 0F. -/
def octets16 : List Nat := [0, 1, 2, 3, 4, 5, 6, 7, 8, 9, 10, 11, 12, 13, 14, 15]

/-! ## Auxiliary definitions for the statements -/

/-- The string a formatting call returns, read when the call returns. -/
def FmtResult.str (r : FmtResult) : CStr := r.ref.deref r.st

/-- Two uppercase hex characters per octet, high nibble first, no separators. -/
def hexPairs : List Nat → CStr
  | [] => []
  | b :: bs => hexAt (b / 16) :: hexAt (b % 16) :: hexPairs bs

/-- The items cover `[a, b)` contiguously and in order: the first starts at
`a`, each next one starts where the previous one stops, the last stops at `b`. -/
def tiles (a b : Nat) : List proto_item → Prop
  | [] => a = b
  | i :: is => i.start = a ∧ tiles i.stop b is

/-- The fixed header as read at the top of `dissect_arp`. -/
structure ArpHeader where
  ar_hrd : Nat
  ar_pro : Nat
  ar_hln : Nat
  ar_pln : Nat
  ar_op : Nat
  deriving DecidableEq, Repr

/-- The five header reads of `dissect_arp`, at `offset + AR_HRD`, ..,
`offset + AR_OP`. -/
def read_header (pd : Mem) (offset : Nat) : ArpHeader :=
  ⟨pntohs pd (offset + AR_HRD), pntohs pd (offset + AR_PRO), rd pd (offset + AR_HLN),
    rd pd (offset + AR_PLN), pntohs pd (offset + AR_OP)⟩

/-- The text `arphrdaddr_to_str(&pd[ad], n, t)` produces for the octets at
`ad`: the result of the call, read when it returns. -/
def hrd_text (pd : Mem) (ad n t : Nat) : CStr :=
  if t = ARPHRD_ETHER ∧ n = 6 then ether_to_str pd ad else (arpaddr_chars pd ad n).1

/-- The text `arpproaddr_to_str(&pd[ad], n, t)` produces for the octets at
`ad`: the result of the call, read when it returns. -/
def pro_text (pd : Mem) (ad n t : Nat) : CStr :=
  if t = ETHERTYPE_IP ∧ n = 4 then ip_to_str pd ad else (arpaddr_chars pd ad n).1

/-- The addresses `arphrdaddr_to_str(&pd[ad], n, t)` reads. -/
def hrd_reads (ad n t : Nat) : List Nat :=
  if t = ARPHRD_ETHER ∧ n = 6 then addrRange ad 6 else addrRange ad (min n 8)

/-- The addresses `arpproaddr_to_str(&pd[ad], n, t)` reads. -/
def pro_reads (ad n t : Nat) : List Nat :=
  if t = ETHERTYPE_IP ∧ n = 4 then addrRange ad 4 else addrRange ad (min n 8)

/-- Whether none of the four addresses goes through `arpaddr_to_str` alone:
the hardware addresses are Ethernet/6 or the protocol addresses are IPv4/4. -/
def typed_addrs (h : ArpHeader) : Prop :=
  (h.ar_hrd = ARPHRD_ETHER ∧ h.ar_hln = 6) ∨ (h.ar_pro = ETHERTYPE_IP ∧ h.ar_pln = 4)

instance (h : ArpHeader) : Decidable (typed_addrs h) := by
  unfold typed_addrs
  infer_instance

/-- The characters `sha_str` points at when the columns and the tree are
filled in: the sender hardware address, unless all four addresses went
through `arpaddr_to_str`, whose fourth call reuses the buffer of the first. -/
def sha_shown (pd : Mem) (offset : Nat) : CStr :=
  let h := read_header pd offset
  if typed_addrs h then hrd_text pd (offset + 8) h.ar_hln h.ar_hrd
  else pro_text pd (offset + 8 + h.ar_hln + h.ar_pln + h.ar_hln) h.ar_pln h.ar_pro

/-- The table of lowercase hex digits used by the conversion `%x`. -/
def hexLower : List Char := "0123456789abcdef".toList

/-- The lowercase hex digit of value `i`. -/
def hexLowerAt (i : Nat) : Char := hexLower.getD i '0'

/-- The value of an uppercase hex digit: its position in the table `hex`. -/
def hexVal (c : Char) : Nat := hex.indexOf c

/-- Read a string back as base-16 pairs, high nibble first. -/
def unhexPairs : CStr → List Nat
  | hi :: lo :: cs => (16 * hexVal hi + hexVal lo) :: unhexPairs cs
  | _ => []

/-- The request `pkt_generic` with opcode 2 (reply): one-octet addresses AA,
BB, CC, DD, all four rendered by the generic formatter. -/
def pkt_generic_reply : List Nat :=
  [0x00, 0x00, 0x00, 0x00, 0x01, 0x01, 0x00, 0x02, 0xAA, 0xBB, 0xCC, 0xDD]

/-- The same with opcode 4 (reverse-reply). -/
def pkt_generic_rreply : List Nat :=
  [0x00, 0x00, 0x00, 0x00, 0x01, 0x01, 0x00, 0x04, 0xAA, 0xBB, 0xCC, 0xDD]

/-- The Ethernet/IPv4 packet of `pkt_request` with opcode 0x0099. -/
def pkt_unknown_op : List Nat :=
  [0x00, 0x01, 0x08, 0x00, 0x06, 0x04, 0x00, 0x99,
   0x00, 0x11, 0x22, 0x33, 0x44, 0x55, 192, 168, 1, 10,
   0, 0, 0, 0, 0, 0, 192, 168, 1, 1]

end Arp

/-! # Conversation table model (`atap_data_model.cpp`)

`ConversationDataModel::headerData` and `ConversationDataModel::data` as
functions of the model's flags and of the requested column. Columns are C
`int`s, modelled as integers; the columns a view asks for are below 14, far
from overflow. -/

namespace ConversationDataModel

/-- Modelled from the spec: the enumeration `conversation_column_type_e`
(`CONV_COLUMN_SRC_ADDR` .. `CONV_NUM_COLUMNS`) is declared in
`atap_data_model.h`, which is not among the sources. Its enumerators are
numbered 0..14 in the order in which `data` switches on them and in which
`headerData` numbers its titles. -/
def CONV_COLUMN_SRC_ADDR : Int := 0

/-- Modelled from the spec: enumerator 1 of `conversation_column_type_e`. -/
def CONV_COLUMN_SRC_PORT : Int := 1

/-- Modelled from the spec: enumerator 2 of `conversation_column_type_e`. -/
def CONV_COLUMN_DST_ADDR : Int := 2

/-- Modelled from the spec: enumerator 3 of `conversation_column_type_e`. -/
def CONV_COLUMN_DST_PORT : Int := 3

/-- Modelled from the spec: enumerator 4 of `conversation_column_type_e`. -/
def CONV_COLUMN_PACKETS : Int := 4

/-- Modelled from the spec: enumerator 5 of `conversation_column_type_e`. -/
def CONV_COLUMN_BYTES : Int := 5

/-- Modelled from the spec: enumerator 6 of `conversation_column_type_e`. -/
def CONV_COLUMN_PKT_AB : Int := 6

/-- Modelled from the spec: enumerator 7 of `conversation_column_type_e`. -/
def CONV_COLUMN_BYTES_AB : Int := 7

/-- Modelled from the spec: enumerator 8 of `conversation_column_type_e`. -/
def CONV_COLUMN_PKT_BA : Int := 8

/-- Modelled from the spec: enumerator 9 of `conversation_column_type_e`. -/
def CONV_COLUMN_BYTES_BA : Int := 9

/-- Modelled from the spec: enumerator 10 of `conversation_column_type_e`. -/
def CONV_COLUMN_START : Int := 10

/-- Modelled from the spec: enumerator 11 of `conversation_column_type_e`. -/
def CONV_COLUMN_DURATION : Int := 11

/-- Modelled from the spec: enumerator 12 of `conversation_column_type_e`. -/
def CONV_COLUMN_BPS_AB : Int := 12

/-- Modelled from the spec: enumerator 13 of `conversation_column_type_e`. -/
def CONV_COLUMN_BPS_BA : Int := 13

/-- Modelled from the spec: the number of columns, the last enumerator. -/
def CONV_NUM_COLUMNS : Int := 14

/-- The orientation argument of `headerData`. -/
inductive Orientation where
  | Horizontal
  | Vertical
  deriving DecidableEq, Repr

/-- The roles `headerData` distinguishes; every other role is `Other`. -/
inductive Role where
  | DisplayRole
  | TextAlignmentRole
  | Other
  deriving DecidableEq, Repr

/-- The `QVariant` returned by `headerData`: invalid, a title, or an alignment. -/
inductive HeaderValue where
  | invalid
  | text (s : String)
  | AlignLeft
  | AlignRight
  deriving DecidableEq, Repr

/-- The method `columnCount`. -/
def columnCount (portsAreHidden : Bool) : Int :=
  let columnMax := CONV_NUM_COLUMNS
  if portsAreHidden then columnMax - 2 else columnMax

/-- The column `headerData` computes from `section`. -/
def headerColumn (portsAreHidden : Bool) (sect : Int) : Int :=
  let column := sect
  if portsAreHidden then
    let column := if sect > CONV_COLUMN_SRC_ADDR then column + 1 else column
    let column := if column > CONV_COLUMN_DST_ADDR then column + 1 else column
    column
  else column

/-- The `switch (column)` of `headerData` for `Qt::DisplayRole`; `none` when no
case matches. -/
def headerTitle (absoluteTime : Bool) (column : Int) : Option String :=
  if column = 0 then some "Address A"
  else if column = 1 then some "Port A"
  else if column = 2 then some "Address B"
  else if column = 3 then some "Port B"
  else if column = 4 then some "Packets"
  else if column = 5 then some "Bytes"
  else if column = 6 then some "Packets A → B"
  else if column = 7 then some "Bytes A → B"
  else if column = 8 then some "Packets B → A"
  else if column = 9 then some "Packets B → A"
  else if column = 10 then some (if absoluteTime then "Abs Start" else "Rel Start")
  else if column = 11 then some "Duration"
  else if column = 12 then some "Bits/s A → B"
  else if column = 13 then some "Bits/s B → A"
  else none

/-- The method `headerData(section, orientation, role)`. -/
def headerData (portsAreHidden absoluteTime : Bool) (sect : Int) (orientation : Orientation)
    (role : Role) : HeaderValue :=
  if orientation = .Vertical then .invalid
  else
    let column := headerColumn portsAreHidden sect
    match role with
    | .DisplayRole =>
      match headerTitle absoluteTime column with
      | some s => .text s
      | none => .invalid
    | .TextAlignmentRole =>
      if column = CONV_COLUMN_SRC_ADDR ∨ column = CONV_COLUMN_DST_ADDR then .AlignLeft
      else .AlignRight
    | .Other => .invalid

/-- The column `data` computes from `idx.column()`. -/
def dataColumn (portsAreHidden : Bool) (idxColumn : Int) : Int :=
  let column := idxColumn
  if portsAreHidden then
    let column := if column ≥ CONV_COLUMN_SRC_PORT then column + 1 else column
    let column := if column ≥ CONV_COLUMN_DST_PORT then column + 1 else column
    column
  else column

/-- The quantity of a conversation that `data` renders in a column. -/
inductive Quantity where
  | src_address
  | src_port
  | dst_address
  | dst_port
  | tx_frames_plus_rx_frames
  | tx_bytes_plus_rx_bytes
  | tx_frames
  | tx_bytes
  | rx_frames
  | rx_bytes
  | start_time
  | duration
  | bps_ab
  | bps_ba
  deriving DecidableEq, Repr

/-- The `switch (column)` of `data` for `Qt::DisplayRole`: which quantity each
case renders. -/
def dataQuantity (column : Int) : Option Quantity :=
  if column = CONV_COLUMN_SRC_ADDR then some .src_address
  else if column = CONV_COLUMN_SRC_PORT then some .src_port
  else if column = CONV_COLUMN_DST_ADDR then some .dst_address
  else if column = CONV_COLUMN_DST_PORT then some .dst_port
  else if column = CONV_COLUMN_PACKETS then some .tx_frames_plus_rx_frames
  else if column = CONV_COLUMN_BYTES then some .tx_bytes_plus_rx_bytes
  else if column = CONV_COLUMN_PKT_AB then some .tx_frames
  else if column = CONV_COLUMN_BYTES_AB then some .tx_bytes
  else if column = CONV_COLUMN_PKT_BA then some .rx_frames
  else if column = CONV_COLUMN_BYTES_BA then some .rx_bytes
  else if column = CONV_COLUMN_START then some .start_time
  else if column = CONV_COLUMN_DURATION then some .duration
  else if column = CONV_COLUMN_BPS_AB then some .bps_ab
  else if column = CONV_COLUMN_BPS_BA then some .bps_ba
  else none

/-! ## `updateData` -/

/-- The two times of a `conv_item_t` that `updateData` reads, in seconds
(`nstime_to_sec`), as values of a linearly ordered type. -/
structure conv_item_t (α : Type) where
  start_time : α
  stop_time : α

/-- The members `_minRelStartTime` and `_maxRelStopTime` of the model. -/
structure RelSpan (α : Type) where
  _minRelStartTime : α
  _maxRelStopTime : α

/-- The body of the `for` loop of `updateData`, from row `row` on; `rows` are
the items of `storage_` not yet visited. -/
def updateData_loop {α : Type} [LinearOrder α] :
    Nat → List (conv_item_t α) → RelSpan α → RelSpan α
  | _, [], m => m
  | row, conv_item :: rows, m =>
    updateData_loop (row + 1) rows
      (if row = 0 then ⟨conv_item.start_time, conv_item.stop_time⟩
      else
        ⟨if conv_item.start_time < m._minRelStartTime then conv_item.start_time
          else m._minRelStartTime,
         if conv_item.stop_time > m._maxRelStopTime then conv_item.stop_time
          else m._maxRelStopTime⟩)

/-- The method `updateData()`: both members are reset to 0, then the rows of
`storage_` are visited in order (`rowCount` is the length of `storage_`). -/
def updateData {α : Type} [LinearOrder α] [Zero α] (storage_ : List (conv_item_t α)) :
    RelSpan α :=
  updateData_loop 0 storage_ ⟨0, 0⟩

end ConversationDataModel

/-! # "Filter Save" window (`filter_expression_save_dlg.c`)

The static pointer `filter_save_frame_w` and the "Filter Save" windows that
exist form the state; the entry point and the callbacks are state
transformers. -/

namespace FilterSaveDlg

/-- The state: the static `filter_save_frame_w` (`none` is NULL), the
"Filter Save" windows that exist, the handle the next `dlg_window_new` will
return, and the windows passed to `reactivate_window` so far. -/
structure State where
  filter_save_frame_w : Option Nat
  windows : List Nat
  next_w : Nat
  reactivated : List Nat
  deriving DecidableEq, Repr

/-- The state at program start: the pointer is NULL and no window exists. -/
def State.init : State := ⟨none, [], 0, []⟩

/-- The callback `filter_save_frame_destroy_cb`. -/
def filter_save_frame_destroy_cb (s : State) : State :=
  { s with filter_save_frame_w := none }

/-- The function `filter_expression_save_dlg`, as far as windows and the
static pointer are concerned: with a non-NULL pointer the existing window is
reactivated and the function returns; otherwise `dlg_window_new` creates a
window, which is stored in the pointer and gets the destroy callback. -/
def filter_expression_save_dlg (s : State) : State :=
  match s.filter_save_frame_w with
  | some w => { s with reactivated := s.reactivated ++ [w] }
  | none =>
    { filter_save_frame_w := some s.next_w
      windows := s.windows ++ [s.next_w]
      next_w := s.next_w + 1
      reactivated := s.reactivated }

/-- Modelled from the spec: `window_destroy` is declared in
`ui/gtk/gui_utils.h`, which is not among the sources. Destroying an existing
window removes it and makes the toolkit emit its `destroy` signal, to which
`filter_expression_save_dlg` has connected `filter_save_frame_destroy_cb`;
a handle that is not an existing window is left alone. -/
def window_destroy (s : State) (w : Nat) : State :=
  if w ∈ s.windows then filter_save_frame_destroy_cb { s with windows := s.windows.erase w }
  else s

/-- The callback `filter_save_close_cb(close_bt, parent_w)`. -/
def filter_save_close_cb (s : State) (parent_w : Nat) : State :=
  window_destroy s parent_w

/-- The callback `filter_save_ok_cb(ok_bt, parent_w)`; `added` tells whether
`filter_button_add` returned 0. -/
def filter_save_ok_cb (s : State) (parent_w : Nat) (added : Bool) : State :=
  if added then filter_save_close_cb s parent_w else s

/-- What can happen to the dialog: the entry point is called, a window is
destroyed (by the window manager or by the toolkit), or one of the two
buttons of a window is clicked. -/
inductive Event where
  | save_dlg
  | destroy (w : Nat)
  | ok_clicked (w : Nat) (added : Bool)
  | cancel_clicked (w : Nat)
  deriving DecidableEq, Repr

/-- One event. -/
def step (s : State) : Event → State
  | .save_dlg => filter_expression_save_dlg s
  | .destroy w => window_destroy s w
  | .ok_clicked w added => filter_save_ok_cb s w added
  | .cancel_clicked w => filter_save_close_cb s w

/-- A sequence of events, from the initial state. -/
def run (evs : List Event) : State := evs.foldl step State.init

/-- The invariant: the windows that exist are exactly the one the pointer
tracks (none when it is NULL), and every handle in use is older than the
next one `dlg_window_new` hands out. -/
def Inv (s : State) : Prop :=
  s.windows = s.filter_save_frame_w.toList ∧ ∀ w ∈ s.windows, w < s.next_w

end FilterSaveDlg

namespace Arp

/-! ## Lemmas on the generic formatter -/

theorem bytesAt_zero (pd : Mem) (ad : Nat) : bytesAt pd ad 0 = [] := rfl

theorem bytesAt_succ (pd : Mem) (ad n : Nat) :
    bytesAt pd ad (n + 1) = rd pd ad :: bytesAt pd (ad + 1) n := by
  simp only [bytesAt, List.range_succ_eq_map, List.map_cons, List.map_map, Nat.add_zero]
  congr 1
  apply List.map_congr_left
  intro i _
  simp only [Function.comp, Nat.succ_eq_add_one]
  congr 1
  omega

theorem addrRange_zero (ad : Nat) : addrRange ad 0 = [] := rfl

theorem addrRange_succ (ad n : Nat) :
    addrRange ad (n + 1) = ad :: addrRange (ad + 1) n := by
  simp only [addrRange, List.range_succ_eq_map, List.map_cons, List.map_map, Nat.add_zero]
  congr 1
  apply List.map_congr_left
  intro i _
  simp only [Function.comp, Nat.succ_eq_add_one]
  omega

theorem mem_addrRange (ad n i : Nat) : i ∈ addrRange ad n ↔ ad ≤ i ∧ i < ad + n := by
  simp only [addrRange, List.mem_map, List.mem_range]
  constructor
  · rintro ⟨j, hj, rfl⟩
    omega
  · intro h
    exact ⟨i - ad, by omega, by omega⟩

theorem length_bytesAt (pd : Mem) (ad n : Nat) : (bytesAt pd ad n).length = n := by
  simp [bytesAt]

theorem length_hexPairs (bs : List Nat) : (hexPairs bs).length = 2 * bs.length := by
  induction bs with
  | nil => rfl
  | cons b bs ih => simp only [hexPairs, List.length_cons, ih]; omega

theorem hexAt_mem (i : Nat) (h : i < 16) : hexAt i ∈ hex := by
  have : ∀ j : Fin 16, hexAt j.val ∈ hex := by decide
  exact this ⟨i, h⟩

theorem hexPairs_mem (bs : List Nat) (hb : ∀ b ∈ bs, b < 256) :
    ∀ c ∈ hexPairs bs, c ∈ hex := by
  induction bs with
  | nil => intro c hc; simp [hexPairs] at hc
  | cons b bs ih =>
    intro c hc
    have hb0 : b < 256 := hb b (List.mem_cons_self _ _)
    simp only [hexPairs, List.mem_cons] at hc
    rcases hc with rfl | rfl | hc
    · exact hexAt_mem _ (by omega)
    · exact hexAt_mem _ (by omega)
    · exact ih (fun x hx => hb x (List.mem_cons_of_mem _ hx)) c hc

theorem bytesAt_lt (pd : Mem) (ad n : Nat) : ∀ b ∈ bytesAt pd ad n, b < 256 := by
  intro b hb
  simp only [bytesAt, List.mem_map] at hb
  obtain ⟨i, _, rfl⟩ := hb
  exact Nat.mod_lt _ (by decide)

/-- The loop entered with `len = 2 * k` runs `min ad_len k` times. -/
theorem arpaddr_loop_eq (pd : Mem) (n : Nat) :
    ∀ (k ad : Nat) (out : CStr) (reads : List Nat),
      arpaddr_loop pd n ad (2 * (k : Int)) out reads =
        ⟨out ++ hexPairs (bytesAt pd ad (min n k)), ad + min n k, n - min n k,
          2 * ((k - min n k : Nat) : Int), reads ++ addrRange ad (min n k)⟩ := by
  induction n with
  | zero =>
    intro k ad out reads
    simp [arpaddr_loop, bytesAt_zero, addrRange_zero, hexPairs]
  | succ n ih =>
    intro k ad out reads
    cases k with
    | zero => simp [arpaddr_loop, bytesAt_zero, addrRange_zero, hexPairs]
    | succ k =>
      have hpos : (0 : Int) < 2 * ((k + 1 : Nat) : Int) := by omega
      have hstep : 2 * ((k + 1 : Nat) : Int) - 2 = 2 * (k : Int) := by omega
      have hmin : min (n + 1) (k + 1) = min n k + 1 := by omega
      rw [arpaddr_loop, if_pos hpos, hstep, ih, hmin, bytesAt_succ, addrRange_succ]
      simp only [hexPairs, List.append_assoc, List.cons_append, List.nil_append,
        LoopState.mk.injEq, true_and]
      have hsub : k + 1 - (min n k + 1) = k - min n k := by omega
      exact ⟨by omega, by omega, by rw [hsub], trivial⟩

/-- Closed form of `arpaddr_chars`: the first `min ad_len 8` octets as hex
pairs, then `...` when octets remain. -/
theorem arpaddr_chars_eq (pd : Mem) (ad n : Nat) :
    arpaddr_chars pd ad n =
      (hexPairs (bytesAt pd ad (min n 8)) ++ (if 8 < n then ['.', '.', '.'] else []),
        addrRange ad (min n 8)) := by
  have h := arpaddr_loop_eq pd n 8 ad [] []
  have h16 : ((MAX_ADDR_STR_LEN : Nat) : Int) = 2 * ((8 : Nat) : Int) := by
    simp [MAX_ADDR_STR_LEN]
  simp only [arpaddr_chars, h16, h, List.nil_append]
  by_cases hn : 8 < n
  · have : n - min n 8 ≠ 0 := by omega
    simp [hn, this]
  · have : n - min n 8 = 0 := by omega
    simp [hn, this]

theorem ArpAddrStatic.get_put (st : ArpAddrStatic) (i : BufIx) (s : CStr) :
    (st.put i s).get i = s := by
  cases i <;> rfl

theorem arpaddr_to_str_str (st : ArpAddrStatic) (pd : Mem) (ad n : Nat) :
    (arpaddr_to_str st pd ad n).str = (arpaddr_chars pd ad n).1 := by
  simp [arpaddr_to_str, FmtResult.str, StrRef.deref, ArpAddrStatic.get_put]

theorem arpaddr_chars_mem (pd : Mem) (ad n : Nat) (c : Char)
    (hc : c ∈ (arpaddr_chars pd ad n).1) : c ∈ hex ∨ c = '.' := by
  rw [arpaddr_chars_eq] at hc
  simp only [List.mem_append] at hc
  rcases hc with hc | hc
  · exact Or.inl (hexPairs_mem _ (bytesAt_lt _ _ _) c hc)
  · right
    split at hc
    · simpa using hc
    · simp at hc

theorem arpaddr_chars_length (pd : Mem) (ad n : Nat) :
    (arpaddr_chars pd ad n).1.length = 2 * min n 8 + (if 8 < n then 3 else 0) := by
  rw [arpaddr_chars_eq]
  by_cases h : 8 < n <;> simp [h, length_hexPairs, length_bytesAt]

/-! ## Lemmas on `dissect_arp` -/

theorem dissect_arp_reads_header (etv : value_string) (st : ArpAddrStatic) (pd : Mem)
    (offset : Nat) (fd : frame_data) (tree : Option GtkTree) (i : Nat)
    (h : i ∈ addrRange offset 8) : i ∈ (dissect_arp etv st pd offset fd tree).reads := by
  simp only [dissect_arp, List.mem_append]
  exact Or.inl (Or.inl (Or.inl (Or.inl h)))

theorem arphrdaddr_to_str_str (st : ArpAddrStatic) (pd : Mem) (ad n t : Nat) :
    (arphrdaddr_to_str st pd ad n t).str =
      if t = ARPHRD_ETHER ∧ n = 6 then ether_to_str pd ad else (arpaddr_chars pd ad n).1 := by
  unfold arphrdaddr_to_str
  split
  · rfl
  · exact arpaddr_to_str_str st pd ad n

theorem arpproaddr_to_str_str (st : ArpAddrStatic) (pd : Mem) (ad n t : Nat) :
    (arpproaddr_to_str st pd ad n t).str =
      if t = ETHERTYPE_IP ∧ n = 4 then ip_to_str pd ad else (arpaddr_chars pd ad n).1 := by
  unfold arpproaddr_to_str
  split
  · rfl
  · exact arpaddr_to_str_str st pd ad n

theorem colon_mem_ether_to_str (pd : Mem) (ad : Nat) : ':' ∈ ether_to_str pd ad := by
  simp [ether_to_str]

theorem dot_mem_ip_to_str (pd : Mem) (ad : Nat) : '.' ∈ ip_to_str pd ad := by
  simp [ip_to_str]

set_option maxRecDepth 100000 in
theorem fmt_d_length_le (v : Nat) (h : v < 256) : (fmt_d v).length ≤ 3 := by
  have : ∀ w : Fin 256, (fmt_d w.val).length ≤ 3 := by decide
  exact this ⟨v, h⟩

theorem ip_to_str_length_le (pd : Mem) (ad : Nat) : (ip_to_str pd ad).length ≤ 15 := by
  have h0 := fmt_d_length_le (rd pd ad) (Nat.mod_lt _ (by decide))
  have h1 := fmt_d_length_le (rd pd (ad + 1)) (Nat.mod_lt _ (by decide))
  have h2 := fmt_d_length_le (rd pd (ad + 2)) (Nat.mod_lt _ (by decide))
  have h3 := fmt_d_length_le (rd pd (ad + 3)) (Nat.mod_lt _ (by decide))
  simp only [ip_to_str, List.length_append, List.length_singleton]
  omega

/-- The generic rendering never coincides with the Ethernet rendering. -/
theorem arpaddr_chars_ne_ether (pd : Mem) (ad n ad2 : Nat) :
    (arpaddr_chars pd ad n).1 ≠ ether_to_str pd ad2 := by
  intro h
  have hc := colon_mem_ether_to_str pd ad2
  rw [← h] at hc
  rcases arpaddr_chars_mem pd ad n _ hc with h1 | h1
  · revert h1; decide
  · revert h1; decide

/-- The generic rendering never coincides with the dotted-decimal rendering. -/
theorem arpaddr_chars_ne_ip (pd : Mem) (ad n ad2 : Nat) :
    (arpaddr_chars pd ad n).1 ≠ ip_to_str pd ad2 := by
  intro h
  have hlen := arpaddr_chars_length pd ad n
  have hle := ip_to_str_length_le pd ad2
  have hd := dot_mem_ip_to_str pd ad2
  rw [← h] at hd hle
  by_cases h8 : 8 < n
  · rw [if_pos h8] at hlen
    omega
  · rw [arpaddr_chars_eq, if_neg h8, List.append_nil] at hd
    have := hexPairs_mem _ (bytesAt_lt pd ad (min n 8)) _ hd
    revert this; decide

theorem ArpAddrStatic.put_cur (st : ArpAddrStatic) (i : BufIx) (s : CStr) :
    (st.put i s).cur = some i := by
  cases i <;> rfl

theorem ArpAddrStatic.get_put_ne (st : ArpAddrStatic) (i j : BufIx) (s : CStr) (h : i ≠ j) :
    (st.put j s).get i = st.get i := by
  cases i <;> cases j <;> first | rfl | exact absurd rfl h

theorem nextBuf_ne (i : BufIx) : nextBuf (some i) ≠ i := by
  cases i <;> decide

/-! ## Claims -/

/-- C1 (the code departs from the claim): whatever the captured length,
`dissect_arp` dereferences all eight header addresses, so with fewer than
eight octets from `offset` it reads at `offset + 7`, beyond the buffer; and with
a tree supplied it adds a full ARP item with nine fields instead of at most
one marker. -/
theorem dissect_arp_short_buffer_reads_header (etv : value_string) (st : ArpAddrStatic)
    (pd : Mem) (offset : Nat) (fd : frame_data) (t : GtkTree) :
    offset + 7 ∈ (dissect_arp etv st pd offset fd (some t)).reads ∧
    ∃ item, (dissect_arp etv st pd offset fd (some t)).tree = some (t ++ [item]) ∧
      item.subtree.length = 9 := by
  constructor
  · exact dissect_arp_reads_header _ _ _ _ _ _ _ ((mem_addrRange _ _ _).2 ⟨by omega, by omega⟩)
  · exact ⟨_, rfl, rfl⟩

/-- C2 (the code departs from the claim): on the 18-octet capture `pkt_cut`
(complete header, hardware length 6, protocol length 4, both target addresses
beyond the buffer) followed by arbitrary memory, `dissect_arp` reads all of
addresses 0..27, including the ten beyond the buffer, and adds the full item
of length 28 with nine fields. -/
theorem dissect_arp_cut_packet_reads_past_end (rest : Mem) :
    (dissect_arp [] .init (memWith pkt_cut rest) 0 fd0 (some [])).reads = List.range 28 ∧
    ∃ item, (dissect_arp [] .init (memWith pkt_cut rest) 0 fd0 (some [])).tree = some [item] ∧
      item.start = 0 ∧ item.len = 28 ∧ item.subtree.length = 9 := by
  constructor
  · simp [dissect_arp, arphrdaddr_to_str, arpproaddr_to_str, pntohs, rd, memWith, pkt_cut,
      AR_HRD, AR_PRO, AR_HLN, AR_PLN, AR_OP, ARPHRD_ETHER, ETHERTYPE_IP, addrRange]
    decide
  · refine ⟨_, rfl, rfl, ?_, rfl⟩
    simp [dissect_arp, arp_item, proto_item.len, rd, memWith, pkt_cut, AR_HLN, AR_PLN]

/-- C3 counterexample: for the sixteen octets 00..0F the generic formatter
returns `0001020304050607...` (sixteen hex characters and the ellipsis), which
is not of the claimed shape: 32 hex characters and no ellipsis. -/
theorem arpaddr_to_str_sixteen_octets :
    (arpaddr_to_str .init (memOf octets16) 0 16).str = "0001020304050607...".toList ∧
    ¬ ∃ h : CStr,
        (arpaddr_to_str .init (memOf octets16) 0 16).str =
          h ++ (if 16 < 16 then ['.', '.', '.'] else []) ∧
        h.length = 2 * min 16 16 ∧ ∀ c ∈ h, c ∈ hex := by
  have h1 : (arpaddr_to_str .init (memOf octets16) 0 16).str
      = "0001020304050607...".toList := by decide
  refine ⟨h1, ?_⟩
  rintro ⟨h, heq, hlen, -⟩
  rw [h1] at heq
  have := congrArg List.length heq
  simp [hlen] at this

/-- C3 (amended): the generic formatter returns exactly `2 * min n 8` characters
of the table `hex`, followed by `...` if and only if `n > 8`: the cap of 16 is
on characters, that is eight octets. -/
theorem arpaddr_to_str_shape (st : ArpAddrStatic) (pd : Mem) (ad n : Nat) :
    ∃ h : CStr,
      (arpaddr_to_str st pd ad n).str = h ++ (if 8 < n then ['.', '.', '.'] else []) ∧
      h.length = 2 * min n 8 ∧ ∀ c ∈ h, c ∈ hex := by
  refine ⟨hexPairs (bytesAt pd ad (min n 8)), ?_, ?_, ?_⟩
  · rw [arpaddr_to_str_str, arpaddr_chars_eq]
  · rw [length_hexPairs, length_bytesAt]
  · exact hexPairs_mem _ (bytesAt_lt _ _ _)

/-- C4 counterexample: for the Ethernet/IPv4 request `pkt_request` the info
column is `Who has 192.168.1.1?  Tell 192.168.1.10`, with two spaces after the
question mark, not the claimed string with one. -/
theorem dissect_arp_request_info_not_one_space :
    (dissect_arp [] .init (memOf pkt_request) 0 fd0 none).fd.col_info =
      "Who has 192.168.1.1?  Tell 192.168.1.10".toList ∧
    (dissect_arp [] .init (memOf pkt_request) 0 fd0 none).fd.col_info ≠
      "Who has ".toList ++ ip_to_str (memOf pkt_request) 24 ++ "? Tell ".toList ++
        ip_to_str (memOf pkt_request) 14 := by
  decide

/-- C4 (amended): for every ARP packet with hardware type 1, hardware length 6,
protocol type 0x0800, protocol length 4 and opcode 1, when the info column is
in use, the string written to it is `Who has ` ++ tpa ++ `?  Tell ` ++ spa with
two spaces after the question mark, tpa and spa being the dotted-decimal
renderings of the target and sender protocol addresses. -/
theorem dissect_arp_request_info (etv : value_string) (st : ArpAddrStatic) (pd : Mem)
    (offset : Nat) (fd : frame_data) (tree : Option GtkTree)
    (hinfo : fd.use_info = true)
    (hhrd : pntohs pd (offset + AR_HRD) = 1) (hhln : rd pd (offset + AR_HLN) = 6)
    (hpro : pntohs pd (offset + AR_PRO) = 0x0800) (hpln : rd pd (offset + AR_PLN) = 4)
    (hop : pntohs pd (offset + AR_OP) = 1) :
    (dissect_arp etv st pd offset fd tree).fd.col_info =
      "Who has ".toList ++ ip_to_str pd (offset + 24) ++ "?  Tell ".toList ++
        ip_to_str pd (offset + 14) := by
  cases hp : fd.use_protocol <;>
    simp [dissect_arp, arphrdaddr_to_str, arpproaddr_to_str, hinfo, hhrd, hhln, hpro, hpln, hop,
      hp, info_text, StrRef.deref, ARPHRD_ETHER, ETHERTYPE_IP, ARPOP_REQUEST, Nat.add_assoc]

/-- C4 witness: the amended statement at the 28-octet request `pkt_request`. -/
theorem dissect_arp_request_info_witness :
    (dissect_arp [] .init (memOf pkt_request) 0 fd0 (some [])).fd.col_info =
      "Who has ".toList ++ ip_to_str (memOf pkt_request) (0 + 24) ++ "?  Tell ".toList ++
        ip_to_str (memOf pkt_request) (0 + 14) :=
  dissect_arp_request_info [] .init (memOf pkt_request) 0 fd0 (some [])
    (by decide) (by decide) (by decide) (by decide) (by decide) (by decide)

/-- C5 (the code departs from the claim): on `pkt_generic` (one-octet
addresses AA, BB, CC, DD, all four rendered by the generic formatter), from
any state of the static buffers, the fourth call reuses the buffer of the
first: the sender hardware address, whose own rendering is `AA`, appears as
`DD` (the target protocol address) in the info column and in the tree. -/
theorem dissect_arp_generic_sender_hw_overwritten (st : ArpAddrStatic) :
    (arphrdaddr_to_str st (memOf pkt_generic) 8 1 0).str = "AA".toList ∧
    (dissect_arp [] st (memOf pkt_generic) 0 fd0 (some [])).fd.col_info =
      "Who is CC?  Tell DD".toList ∧
    (dissect_arp [] st (memOf pkt_generic) 0 fd0 (some [])).tree =
      some [.mk 0 12 "RARP request".toList
        [leaf 0 2 "Hardware type: NET/ROM pseudo".toList,
         leaf 2 2 "Protocol type: Unknown (0x0000)".toList,
         leaf 4 1 "Hardware size: 1".toList,
         leaf 5 1 "Protocol size: 1".toList,
         leaf 6 2 "Opcode: 0x0003 (RARP request)".toList,
         leaf 8 1 "Sender hardware address: DD".toList,
         leaf 9 1 "Sender protocol address: BB".toList,
         leaf 10 1 "Target hardware address: CC".toList,
         leaf 11 1 "Target protocol address: DD".toList]] := by
  obtain ⟨s0, s1, s2, cur⟩ := st
  rcases cur with _ | (_ | _ | _) <;> exact ⟨rfl, rfl, rfl⟩

/-- C6 counterexample: dissecting the 28-octet Ethernet/IPv4 request into an
empty tree adds one item, and its subtree does not have seven fields. -/
theorem dissect_arp_request_not_seven_fields :
    ¬ ∃ item, (dissect_arp [] .init (memOf pkt_request) 0 fd0 (some [])).tree = some [item] ∧
        item.subtree.length = 7 := by
  rintro ⟨item, h, h7⟩
  have h9 : ∃ i9, (dissect_arp [] .init (memOf pkt_request) 0 fd0 (some [])).tree = some [i9] ∧
      i9.subtree.length = 9 := ⟨_, rfl, rfl⟩
  obtain ⟨i9, h9a, h9b⟩ := h9
  rw [h9a] at h
  simp only [Option.some.injEq, List.cons.injEq, and_true] at h
  subst h
  omega

/-- C6 (amended): with a tree supplied, `dissect_arp` appends exactly one item
to it, and that item has exactly nine leaf fields, in the order hardware
type, protocol type, hardware size, protocol size, opcode, sender hardware
address, sender protocol address, target hardware address, target protocol
address. -/
theorem dissect_arp_adds_nine_fields (etv : value_string) (st : ArpAddrStatic) (pd : Mem)
    (offset : Nat) (fd : frame_data) (t : GtkTree) :
    ∃ text v1 v2 v3 v4 v5 v6 v7 v8 v9 : CStr,
      (dissect_arp etv st pd offset fd (some t)).tree =
        some (t ++ [.mk offset
          (8 + 2 * rd pd (offset + AR_HLN) + 2 * rd pd (offset + AR_PLN)) text
          [leaf (offset + AR_HRD) 2 ("Hardware type: ".toList ++ v1),
           leaf (offset + AR_PRO) 2 ("Protocol type: ".toList ++ v2),
           leaf (offset + AR_HLN) 1 ("Hardware size: ".toList ++ v3),
           leaf (offset + AR_PLN) 1 ("Protocol size: ".toList ++ v4),
           leaf (offset + AR_OP) 2 ("Opcode: ".toList ++ v5),
           leaf (offset + 8) (rd pd (offset + AR_HLN))
             ("Sender hardware address: ".toList ++ v6),
           leaf (offset + 8 + rd pd (offset + AR_HLN)) (rd pd (offset + AR_PLN))
             ("Sender protocol address: ".toList ++ v7),
           leaf (offset + 8 + rd pd (offset + AR_HLN) + rd pd (offset + AR_PLN))
             (rd pd (offset + AR_HLN)) ("Target hardware address: ".toList ++ v8),
           leaf (offset + 8 + rd pd (offset + AR_HLN) + rd pd (offset + AR_PLN) +
               rd pd (offset + AR_HLN))
             (rd pd (offset + AR_PLN)) ("Target protocol address: ".toList ++ v9)]]) := by
  exact ⟨_, _, _, _, _, _, _, _, _, _, rfl⟩

/-- C7: with a tree supplied, the item added by `dissect_arp` has range
`[offset, offset + 8 + 2*ar_hln + 2*ar_pln)`; its first five fields tile
`[offset, offset + 8)`, its last four tile the rest contiguously, no field
leaves the parent's range, and the parent's range is exactly the union of the
fields' ranges. -/
theorem dissect_arp_item_range_is_union (etv : value_string) (st : ArpAddrStatic) (pd : Mem)
    (offset : Nat) (fd : frame_data) (t : GtkTree) :
    ∃ item, (dissect_arp etv st pd offset fd (some t)).tree = some (t ++ [item]) ∧
      item.start = offset ∧
      item.stop = offset + 8 + 2 * rd pd (offset + AR_HLN) + 2 * rd pd (offset + AR_PLN) ∧
      (item.subtree.take 5).length = 5 ∧ (item.subtree.drop 5).length = 4 ∧
      tiles offset (offset + 8) (item.subtree.take 5) ∧
      tiles (offset + 8) item.stop (item.subtree.drop 5) ∧
      (∀ c ∈ item.subtree, item.start ≤ c.start ∧ c.stop ≤ item.stop) ∧
      (∀ x, (item.start ≤ x ∧ x < item.stop) ↔
        ∃ c ∈ item.subtree, c.start ≤ x ∧ x < c.stop) := by
  refine ⟨_, rfl, rfl, ?_, rfl, rfl, ?_, ?_, ?_, ?_⟩
  · simp only [proto_item.stop, proto_item.start, proto_item.len, arp_item]
    omega
  · simp [tiles, arp_item, leaf, proto_item.stop, proto_item.start, proto_item.len,
      proto_item.subtree, AR_HRD, AR_PRO, AR_HLN, AR_PLN, AR_OP]
  · simp only [tiles, arp_item, leaf, proto_item.stop, proto_item.start, proto_item.len,
      proto_item.subtree, List.drop, and_self, true_and]
    omega
  · intro c hc
    simp only [arp_item, leaf, proto_item.subtree, List.mem_cons, List.mem_singleton,
      List.not_mem_nil, or_false] at hc
    rcases hc with rfl | rfl | rfl | rfl | rfl | rfl | rfl | rfl | rfl <;>
      simp only [proto_item.stop, proto_item.start, proto_item.len, arp_item, AR_HRD, AR_PRO,
        AR_HLN, AR_PLN, AR_OP] <;> omega
  · intro x
    simp only [arp_item, leaf, proto_item.subtree, proto_item.stop, proto_item.start,
      proto_item.len, List.mem_cons, List.mem_singleton, List.not_mem_nil, or_false,
      exists_eq_or_imp, exists_eq_left, AR_HRD, AR_PRO, AR_HLN, AR_PLN, AR_OP]
    omega

/-- C8: `arphrdaddr_to_str` returns the Ethernet rendering `ether_to_str` of
the octets if and only if the type is 1 and the length is 6; in every other
case the call is exactly the call `arpaddr_to_str(ad, ad_len)` of the generic
formatter. -/
theorem arphrdaddr_to_str_dispatch (st : ArpAddrStatic) (pd : Mem) (ad n t : Nat) :
    ((arphrdaddr_to_str st pd ad n t).str = ether_to_str pd ad ↔ (t = 1 ∧ n = 6)) ∧
    (¬ (t = 1 ∧ n = 6) → arphrdaddr_to_str st pd ad n t = arpaddr_to_str st pd ad n) := by
  constructor
  · rw [arphrdaddr_to_str_str]
    by_cases h : t = ARPHRD_ETHER ∧ n = 6
    · rw [if_pos h]
      exact ⟨fun _ => h, fun _ => rfl⟩
    · rw [if_neg h]
      constructor
      · intro he
        exact absurd he (arpaddr_chars_ne_ether pd ad n ad)
      · intro h1
        exact absurd h1 h
  · intro h
    unfold arphrdaddr_to_str
    exact if_neg h

/-- C9: `arpproaddr_to_str` returns the dotted-decimal rendering `ip_to_str` of
the octets if and only if the type is 0x0800 and the length is 4; in every
other case the call is exactly the call `arpaddr_to_str(ad, ad_len)` of the
generic formatter, the same one `arphrdaddr_to_str` falls back to. -/
theorem arpproaddr_to_str_dispatch (st : ArpAddrStatic) (pd : Mem) (ad n t : Nat) :
    ((arpproaddr_to_str st pd ad n t).str = ip_to_str pd ad ↔ (t = 0x0800 ∧ n = 4)) ∧
    (¬ (t = 0x0800 ∧ n = 4) →
      arpproaddr_to_str st pd ad n t = arpaddr_to_str st pd ad n ∧
      ∀ t2, ¬ (t2 = 1 ∧ n = 6) →
        arpproaddr_to_str st pd ad n t = arphrdaddr_to_str st pd ad n t2) := by
  constructor
  · rw [arpproaddr_to_str_str]
    by_cases h : t = ETHERTYPE_IP ∧ n = 4
    · rw [if_pos h]
      exact ⟨fun _ => h, fun _ => rfl⟩
    · rw [if_neg h]
      constructor
      · intro he
        exact absurd he (arpaddr_chars_ne_ip pd ad n ad)
      · intro h1
        exact absurd h1 h
  · intro h
    have h1 : arpproaddr_to_str st pd ad n t = arpaddr_to_str st pd ad n := by
      unfold arpproaddr_to_str
      exact if_neg h
    refine ⟨h1, ?_⟩
    intro t2 h2
    rw [h1]
    unfold arphrdaddr_to_str
    exact (if_neg h2).symm

/-- C10 counterexample: for the Ethernet/IPv4 reverse-request `pkt_rarp` the
info column is `Who is 66:77:88:99:aa:bb?  Tell 00:11:22:33:44:55`, with two
spaces after the question mark, not the claimed string with one. -/
theorem dissect_arp_rrequest_info_not_one_space :
    (dissect_arp [] .init (memOf pkt_rarp) 0 fd0 none).fd.col_info =
      "Who is 66:77:88:99:aa:bb?  Tell 00:11:22:33:44:55".toList ∧
    (dissect_arp [] .init (memOf pkt_rarp) 0 fd0 none).fd.col_info ≠
      "Who is ".toList ++ (arphrdaddr_to_str .init (memOf pkt_rarp) 18 6 1).str ++
        "? Tell ".toList ++ (arphrdaddr_to_str .init (memOf pkt_rarp) 8 6 1).str := by
  decide

/-- C10 (amended): for every ARP packet with opcode 3 whose hardware addresses
are Ethernet/6 or whose protocol addresses are IPv4/4, when the info column is
in use, the string written to it is `Who is ` ++ tha ++ `?  Tell ` ++ sha with
two spaces after the question mark, tha and sha being the target and sender
hardware addresses as formatted by `arphrdaddr_to_str` (from any state of the
static buffers). -/
theorem dissect_arp_rrequest_info (etv : value_string) (st sa sb : ArpAddrStatic) (pd : Mem)
    (offset : Nat) (fd : frame_data) (tree : Option GtkTree)
    (hinfo : fd.use_info = true)
    (hop : pntohs pd (offset + AR_OP) = 3)
    (hfmt : (pntohs pd (offset + AR_HRD) = 1 ∧ rd pd (offset + AR_HLN) = 6) ∨
      (pntohs pd (offset + AR_PRO) = 0x0800 ∧ rd pd (offset + AR_PLN) = 4)) :
    (dissect_arp etv st pd offset fd tree).fd.col_info =
      "Who is ".toList ++
        (arphrdaddr_to_str sa pd
          (offset + 8 + rd pd (offset + AR_HLN) + rd pd (offset + AR_PLN))
          (rd pd (offset + AR_HLN)) (pntohs pd (offset + AR_HRD))).str ++
        "?  Tell ".toList ++
        (arphrdaddr_to_str sb pd (offset + 8)
          (rd pd (offset + AR_HLN)) (pntohs pd (offset + AR_HRD))).str := by
  rw [arphrdaddr_to_str_str, arphrdaddr_to_str_str]
  by_cases he : pntohs pd (offset + AR_HRD) = ARPHRD_ETHER ∧ rd pd (offset + AR_HLN) = 6
  · cases hp : fd.use_protocol <;>
      simp [dissect_arp, arphrdaddr_to_str, hinfo, hop, he, hp, info_text, StrRef.deref,
        ARPOP_REQUEST, ARPOP_REPLY, ARPOP_RREQUEST]
  · have hi : pntohs pd (offset + AR_PRO) = ETHERTYPE_IP ∧ rd pd (offset + AR_PLN) = 4 := by
      rcases hfmt with h | h
      · exact absurd h he
      · exact h
    have hne := nextBuf_ne (nextBuf st.cur)
    cases hp : fd.use_protocol <;>
      simp [dissect_arp, arphrdaddr_to_str, arpproaddr_to_str, arpaddr_to_str, hinfo, hop, he,
        hi, hp, info_text, StrRef.deref, ARPOP_REQUEST, ARPOP_REPLY, ARPOP_RREQUEST,
        ArpAddrStatic.put_cur, ArpAddrStatic.get_put, ArpAddrStatic.get_put_ne _ _ _ _ hne.symm]

/-- C10 witness: the amended statement at the reverse-request `pkt_rarp`. -/
theorem dissect_arp_rrequest_info_witness :
    (dissect_arp [] .init (memOf pkt_rarp) 0 fd0 none).fd.col_info =
      "Who is ".toList ++
        (arphrdaddr_to_str .init (memOf pkt_rarp)
          (0 + 8 + rd (memOf pkt_rarp) (0 + AR_HLN) + rd (memOf pkt_rarp) (0 + AR_PLN))
          (rd (memOf pkt_rarp) (0 + AR_HLN)) (pntohs (memOf pkt_rarp) (0 + AR_HRD))).str ++
        "?  Tell ".toList ++
        (arphrdaddr_to_str .init (memOf pkt_rarp) (0 + 8)
          (rd (memOf pkt_rarp) (0 + AR_HLN)) (pntohs (memOf pkt_rarp) (0 + AR_HRD))).str :=
  dissect_arp_rrequest_info [] .init .init .init (memOf pkt_rarp) 0 fd0 none
    (by decide) (by decide) (by decide)

/-! ## The strings `dissect_arp` displays -/

theorem dissect_arp_fd (etv : value_string) (st : ArpAddrStatic) (pd : Mem) (offset : Nat)
    (fd : frame_data) (tree : Option GtkTree) :
    (dissect_arp etv st pd offset fd tree).fd =
      ⟨fd.use_protocol, fd.use_info,
        if fd.use_protocol then protocol_text (read_header pd offset).ar_op
        else fd.col_protocol,
        if fd.use_info then
          info_text (read_header pd offset).ar_op (sha_shown pd offset)
            (pro_text pd (offset + 8 + (read_header pd offset).ar_hln)
              (read_header pd offset).ar_pln (read_header pd offset).ar_pro)
            (hrd_text pd
              (offset + 8 + (read_header pd offset).ar_hln + (read_header pd offset).ar_pln)
              (read_header pd offset).ar_hln (read_header pd offset).ar_hrd)
            (pro_text pd
              (offset + 8 + (read_header pd offset).ar_hln + (read_header pd offset).ar_pln +
                (read_header pd offset).ar_hln)
              (read_header pd offset).ar_pln (read_header pd offset).ar_pro)
        else fd.col_info⟩ := by
  obtain ⟨s0, s1, s2, cur⟩ := st
  obtain ⟨up, ui, cp, ci⟩ := fd
  by_cases he : pntohs pd (offset + AR_HRD) = ARPHRD_ETHER ∧ rd pd (offset + AR_HLN) = 6 <;>
  by_cases hi : pntohs pd (offset + AR_PRO) = ETHERTYPE_IP ∧ rd pd (offset + AR_PLN) = 4 <;>
  rcases cur with _ | (_ | _ | _) <;> cases up <;> cases ui <;>
  simp [dissect_arp, arphrdaddr_to_str, arpproaddr_to_str, arpaddr_to_str, he, hi, nextBuf,
    ArpAddrStatic.put, ArpAddrStatic.get, StrRef.deref, sha_shown, hrd_text, pro_text,
    read_header, typed_addrs]

theorem dissect_arp_tree (etv : value_string) (st : ArpAddrStatic) (pd : Mem) (offset : Nat)
    (fd : frame_data) (tree : Option GtkTree) :
    (dissect_arp etv st pd offset fd tree).tree =
      tree.map (fun t => t ++
        [arp_item etv offset (read_header pd offset).ar_hrd (read_header pd offset).ar_pro
          (read_header pd offset).ar_hln (read_header pd offset).ar_pln
          (read_header pd offset).ar_op
          (offset + 8)
          (offset + 8 + (read_header pd offset).ar_hln)
          (offset + 8 + (read_header pd offset).ar_hln + (read_header pd offset).ar_pln)
          (offset + 8 + (read_header pd offset).ar_hln + (read_header pd offset).ar_pln +
            (read_header pd offset).ar_hln)
          (sha_shown pd offset)
          (pro_text pd (offset + 8 + (read_header pd offset).ar_hln)
            (read_header pd offset).ar_pln (read_header pd offset).ar_pro)
          (hrd_text pd
            (offset + 8 + (read_header pd offset).ar_hln + (read_header pd offset).ar_pln)
            (read_header pd offset).ar_hln (read_header pd offset).ar_hrd)
          (pro_text pd
            (offset + 8 + (read_header pd offset).ar_hln + (read_header pd offset).ar_pln +
              (read_header pd offset).ar_hln)
            (read_header pd offset).ar_pln (read_header pd offset).ar_pro)]) := by
  obtain ⟨s0, s1, s2, cur⟩ := st
  by_cases he : pntohs pd (offset + AR_HRD) = ARPHRD_ETHER ∧ rd pd (offset + AR_HLN) = 6 <;>
  by_cases hi : pntohs pd (offset + AR_PRO) = ETHERTYPE_IP ∧ rd pd (offset + AR_PLN) = 4 <;>
  rcases cur with _ | (_ | _ | _) <;>
  simp [dissect_arp, arphrdaddr_to_str, arpproaddr_to_str, arpaddr_to_str, he, hi, nextBuf,
    ArpAddrStatic.put, ArpAddrStatic.get, StrRef.deref, sha_shown, hrd_text, pro_text,
    read_header, typed_addrs]

theorem arphrdaddr_to_str_reads (st : ArpAddrStatic) (pd : Mem) (ad n t : Nat) :
    (arphrdaddr_to_str st pd ad n t).reads = hrd_reads ad n t := by
  unfold arphrdaddr_to_str hrd_reads
  split
  · rfl
  · simp [arpaddr_to_str, arpaddr_chars_eq]

theorem arpproaddr_to_str_reads (st : ArpAddrStatic) (pd : Mem) (ad n t : Nat) :
    (arpproaddr_to_str st pd ad n t).reads = pro_reads ad n t := by
  unfold arpproaddr_to_str pro_reads
  split
  · rfl
  · simp [arpaddr_to_str, arpaddr_chars_eq]

theorem dissect_arp_reads (etv : value_string) (st : ArpAddrStatic) (pd : Mem) (offset : Nat)
    (fd : frame_data) (tree : Option GtkTree) :
    (dissect_arp etv st pd offset fd tree).reads =
      addrRange offset 8 ++
      hrd_reads (offset + 8) (read_header pd offset).ar_hln (read_header pd offset).ar_hrd ++
      pro_reads (offset + 8 + (read_header pd offset).ar_hln)
        (read_header pd offset).ar_pln (read_header pd offset).ar_pro ++
      hrd_reads (offset + 8 + (read_header pd offset).ar_hln + (read_header pd offset).ar_pln)
        (read_header pd offset).ar_hln (read_header pd offset).ar_hrd ++
      pro_reads
        (offset + 8 + (read_header pd offset).ar_hln + (read_header pd offset).ar_pln +
          (read_header pd offset).ar_hln)
        (read_header pd offset).ar_pln (read_header pd offset).ar_pro := by
  simp only [dissect_arp, arphrdaddr_to_str_reads, arpproaddr_to_str_reads, read_header]

/-! ## The conversion `%04x` of a 16-bit value -/

theorem toDigitsCore_four (g n : Nat) (h : n < 65536) :
    List.replicate (4 - (Nat.toDigitsCore 16 (g + 4) n []).length) '0' ++
        Nat.toDigitsCore 16 (g + 4) n [] =
      [Nat.digitChar (n / 4096), Nat.digitChar (n / 256 % 16), Nat.digitChar (n / 16 % 16),
        Nat.digitChar (n % 16)] := by
  have d0 : Nat.digitChar 0 = '0' := rfl
  simp only [Nat.toDigitsCore]
  by_cases h1 : n / 16 = 0
  · have a1 : n / 4096 = 0 := by omega
    have a2 : n / 256 % 16 = 0 := by omega
    have a3 : n / 16 % 16 = 0 := by omega
    simp [h1, a1, a2, a3, d0, List.replicate]
  · by_cases h2 : n / 16 / 16 = 0
    · have a1 : n / 4096 = 0 := by omega
      have a2 : n / 256 % 16 = 0 := by omega
      simp [h1, h2, a1, a2, d0, List.replicate]
    · by_cases h3 : n / 16 / 16 / 16 = 0
      · have a1 : n / 4096 = 0 := by omega
        have a2 : n / 16 / 16 % 16 = n / 256 % 16 := by omega
        simp [h1, h2, h3, a1, a2, d0, List.replicate]
      · have h4 : n / 16 / 16 / 16 / 16 = 0 := by omega
        have a1 : n / 16 / 16 / 16 % 16 = n / 4096 := by omega
        have a2 : n / 16 / 16 % 16 = n / 256 % 16 := by omega
        simp [h1, h2, h3, h4, a1, a2]

theorem digitChar_eq_hexLowerAt (d : Nat) (h : d < 16) : Nat.digitChar d = hexLowerAt d := by
  have : ∀ e : Fin 16, Nat.digitChar e.val = hexLowerAt e.val := by decide
  exact this ⟨d, h⟩

/-- For a 16-bit value `%04x` prints exactly four lowercase hex digits. -/
theorem fmt_0x_four (v : Nat) (h : v < 65536) :
    fmt_0x 4 v =
      [hexLowerAt (v / 4096), hexLowerAt (v / 256 % 16), hexLowerAt (v / 16 % 16),
        hexLowerAt (v % 16)] := by
  rw [← digitChar_eq_hexLowerAt _ (by omega), ← digitChar_eq_hexLowerAt _ (by omega),
    ← digitChar_eq_hexLowerAt _ (by omega), ← digitChar_eq_hexLowerAt _ (by omega)]
  by_cases h16 : v < 16
  · have a1 : v / 4096 = 0 := by omega
    have a2 : v / 256 % 16 = 0 := by omega
    have a3 : v / 16 % 16 = 0 := by omega
    have a4 : v / 16 = 0 := by omega
    have d0 : Nat.digitChar 0 = '0' := rfl
    simp [fmt_0x, Nat.toDigits, Nat.toDigitsCore, a1, a2, a3, a4, d0, List.replicate]
  · obtain ⟨g, rfl⟩ : ∃ g, v = g + 3 := ⟨v - 3, by omega⟩
    exact toDigitsCore_four g (g + 3) h

theorem pntohs_lt (pd : Mem) (i : Nat) : pntohs pd i < 65536 := by
  have h0 : rd pd i < 256 := Nat.mod_lt _ (by decide)
  have h1 : rd pd (i + 1) < 256 := Nat.mod_lt _ (by decide)
  unfold pntohs
  omega

theorem rd_lt (pd : Mem) (i : Nat) : rd pd i < 256 := Nat.mod_lt _ (by decide)

/-! ## Claims on the info column -/

/-- C11 (the code departs from the claim): for opcode 2, when the info column
is in use, the string written is spa ++ ` is at ` ++ x, sender protocol
address first; x is the formatted sender hardware address when the hardware
addresses are Ethernet/6 or the protocol addresses IPv4/4, but when all four
addresses go through the generic formatter x is the formatted target protocol
address, whose buffer is the one the sender hardware address was written to. -/
theorem dissect_arp_reply_info (etv : value_string) (st sa : ArpAddrStatic) (pd : Mem)
    (offset : Nat) (fd : frame_data) (tree : Option GtkTree)
    (hinfo : fd.use_info = true) (hop : (read_header pd offset).ar_op = 2) :
    (dissect_arp etv st pd offset fd tree).fd.col_info =
      (arpproaddr_to_str sa pd (offset + 8 + (read_header pd offset).ar_hln)
        (read_header pd offset).ar_pln (read_header pd offset).ar_pro).str ++
      " is at ".toList ++
      (if typed_addrs (read_header pd offset) then
        (arphrdaddr_to_str sa pd (offset + 8)
          (read_header pd offset).ar_hln (read_header pd offset).ar_hrd).str
      else
        (arpproaddr_to_str sa pd
          (offset + 8 + (read_header pd offset).ar_hln + (read_header pd offset).ar_pln +
            (read_header pd offset).ar_hln)
          (read_header pd offset).ar_pln (read_header pd offset).ar_pro).str) := by
  rw [dissect_arp_fd]
  simp only [hinfo, hop, if_true, info_text, arphrdaddr_to_str_str, arpproaddr_to_str_str,
    sha_shown, hrd_text, pro_text, ARPOP_REQUEST, ARPOP_REPLY]
  simp

/-- C11 witness: on the all-generic reply `pkt_generic_reply` (addresses AA, BB,
CC, DD) the info column is `BB is at DD`, while the sender hardware address
formats as `AA`. -/
theorem dissect_arp_reply_info_witness :
    (dissect_arp [] .init (memOf pkt_generic_reply) 0 fd0 none).fd.col_info =
      "BB is at DD".toList ∧
    (arphrdaddr_to_str .init (memOf pkt_generic_reply) 8 1 0).str = "AA".toList :=
  ⟨(dissect_arp_reply_info [] .init .init (memOf pkt_generic_reply) 0 fd0 none
      (by decide) (by decide)).trans (by decide), by decide⟩

/-- C12 (the code departs from the claim): for opcode 4, when the info column
is in use, the string written is x ++ ` is at ` ++ spa, hardware address
first; x is the formatted sender hardware address when the hardware addresses
are Ethernet/6 or the protocol addresses IPv4/4, but when all four addresses
go through the generic formatter x is the formatted target protocol address. -/
theorem dissect_arp_rreply_info (etv : value_string) (st sa : ArpAddrStatic) (pd : Mem)
    (offset : Nat) (fd : frame_data) (tree : Option GtkTree)
    (hinfo : fd.use_info = true) (hop : (read_header pd offset).ar_op = 4) :
    (dissect_arp etv st pd offset fd tree).fd.col_info =
      (if typed_addrs (read_header pd offset) then
        (arphrdaddr_to_str sa pd (offset + 8)
          (read_header pd offset).ar_hln (read_header pd offset).ar_hrd).str
      else
        (arpproaddr_to_str sa pd
          (offset + 8 + (read_header pd offset).ar_hln + (read_header pd offset).ar_pln +
            (read_header pd offset).ar_hln)
          (read_header pd offset).ar_pln (read_header pd offset).ar_pro).str) ++
      " is at ".toList ++
      (arpproaddr_to_str sa pd (offset + 8 + (read_header pd offset).ar_hln)
        (read_header pd offset).ar_pln (read_header pd offset).ar_pro).str := by
  rw [dissect_arp_fd]
  simp only [hinfo, hop, if_true, info_text, arphrdaddr_to_str_str, arpproaddr_to_str_str,
    sha_shown, hrd_text, pro_text, ARPOP_REQUEST, ARPOP_REPLY, ARPOP_RREQUEST, ARPOP_RREPLY]
  simp

/-- C12 witness: on the all-generic reverse-reply `pkt_generic_rreply` the info
column is `DD is at BB`, while the sender hardware address formats as `AA`. -/
theorem dissect_arp_rreply_info_witness :
    (dissect_arp [] .init (memOf pkt_generic_rreply) 0 fd0 none).fd.col_info =
      "DD is at BB".toList ∧
    (arphrdaddr_to_str .init (memOf pkt_generic_rreply) 8 1 0).str = "AA".toList :=
  ⟨(dissect_arp_rreply_info [] .init .init (memOf pkt_generic_rreply) 0 fd0 none
      (by decide) (by decide)).trans (by decide), by decide⟩

/-- C13: for an opcode other than 1, 2, 3, 4, with both columns in use, the
info column is `Unknown ARP opcode 0x` followed by exactly four lowercase hex
digits of the opcode (zero-padded), and the protocol column is `ARP`. -/
theorem dissect_arp_unknown_opcode (etv : value_string) (st : ArpAddrStatic) (pd : Mem)
    (offset : Nat) (fd : frame_data) (tree : Option GtkTree)
    (hproto : fd.use_protocol = true) (hinfo : fd.use_info = true)
    (h1 : (read_header pd offset).ar_op ≠ 1) (h2 : (read_header pd offset).ar_op ≠ 2)
    (h3 : (read_header pd offset).ar_op ≠ 3) (h4 : (read_header pd offset).ar_op ≠ 4) :
    (dissect_arp etv st pd offset fd tree).fd.col_info =
      "Unknown ARP opcode 0x".toList ++
        [hexLowerAt ((read_header pd offset).ar_op / 4096),
         hexLowerAt ((read_header pd offset).ar_op / 256 % 16),
         hexLowerAt ((read_header pd offset).ar_op / 16 % 16),
         hexLowerAt ((read_header pd offset).ar_op % 16)] ∧
    (dissect_arp etv st pd offset fd tree).fd.col_protocol = "ARP".toList := by
  have hlt : (read_header pd offset).ar_op < 65536 := pntohs_lt pd _
  rw [dissect_arp_fd]
  constructor
  · simp only [hinfo, if_true, info_text, ARPOP_REQUEST, ARPOP_REPLY, ARPOP_RREQUEST,
      ARPOP_RREPLY, if_neg h1, if_neg h2, if_neg h3, if_neg h4, fmt_0x_four _ hlt]
  · simp only [hproto, if_true, protocol_text, match_strval, op_vals, ARPOP_REQUEST,
      ARPOP_REPLY, ARPOP_RREQUEST, ARPOP_RREPLY]
    rw [if_neg (Ne.symm h1), if_neg (Ne.symm h2), if_neg (Ne.symm h3), if_neg (Ne.symm h4)]

/-- C13 witness: opcode 0x0099 on the Ethernet/IPv4 packet `pkt_unknown_op`
gives the info column `Unknown ARP opcode 0x0099` and the protocol column
`ARP`. -/
theorem dissect_arp_unknown_opcode_witness :
    (dissect_arp [] .init (memOf pkt_unknown_op) 0 fd0 none).fd.col_info =
      "Unknown ARP opcode 0x0099".toList ∧
    (dissect_arp [] .init (memOf pkt_unknown_op) 0 fd0 none).fd.col_protocol =
      "ARP".toList :=
  dissect_arp_unknown_opcode [] .init (memOf pkt_unknown_op) 0 fd0 none
    (by decide) (by decide) (by decide) (by decide) (by decide) (by decide)

/-! ## Claims on the header and the address fields -/

/-- C14: with at least eight octets from `offset`, `dissect_arp` reads the
header inside the buffer and decodes hardware type, protocol type and opcode
as big-endian 16-bit values and the two lengths as single octets; these are
the values the tree item is built from. -/
theorem dissect_arp_header_decode (etv : value_string) (st : ArpAddrStatic) (pd : Mem)
    (offset len : Nat) (fd : frame_data) (t : GtkTree) (hlen : offset + 8 ≤ len) :
    read_header pd offset =
      ⟨256 * rd pd (offset + 0) + rd pd (offset + 1),
       256 * rd pd (offset + 2) + rd pd (offset + 3),
       rd pd (offset + 4), rd pd (offset + 5),
       256 * rd pd (offset + 6) + rd pd (offset + 7)⟩ ∧
    ((read_header pd offset).ar_hrd < 65536 ∧ (read_header pd offset).ar_pro < 65536 ∧
      (read_header pd offset).ar_hln < 256 ∧ (read_header pd offset).ar_pln < 256 ∧
      (read_header pd offset).ar_op < 65536) ∧
    ((dissect_arp etv st pd offset fd (some t)).reads.take 8 = addrRange offset 8 ∧
      ∀ i ∈ addrRange offset 8, i < len) ∧
    ∃ sha spa tha tpa : CStr,
      (dissect_arp etv st pd offset fd (some t)).tree =
        some (t ++ [arp_item etv offset
          (256 * rd pd (offset + 0) + rd pd (offset + 1))
          (256 * rd pd (offset + 2) + rd pd (offset + 3))
          (rd pd (offset + 4)) (rd pd (offset + 5))
          (256 * rd pd (offset + 6) + rd pd (offset + 7))
          (offset + 8) (offset + 8 + rd pd (offset + 4))
          (offset + 8 + rd pd (offset + 4) + rd pd (offset + 5))
          (offset + 8 + rd pd (offset + 4) + rd pd (offset + 5) + rd pd (offset + 4))
          sha spa tha tpa]) := by
  refine ⟨rfl, ⟨pntohs_lt _ _, pntohs_lt _ _, rd_lt _ _, rd_lt _ _, pntohs_lt _ _⟩, ⟨?_, ?_⟩,
    ⟨_, _, _, _, rfl⟩⟩
  · rw [dissect_arp_reads]
    simp only [List.append_assoc]
    rw [List.take_append_of_le_length (by simp [addrRange])]
    exact List.take_of_length_le (by simp [addrRange])
  · intro i hi
    have := (mem_addrRange _ _ _).1 hi
    omega

/-- C14 witness: the header of `pkt_request` in a 28-octet buffer. -/
theorem dissect_arp_header_decode_witness :
    read_header (memOf pkt_request) 0 = ⟨1, 0x0800, 6, 4, 1⟩ :=
  (dissect_arp_header_decode [] .init (memOf pkt_request) 0 28 fd0 [] (by decide)).1

theorem hrd_reads_within (ad n t i : Nat) (h : i ∈ hrd_reads ad n t) : ad ≤ i ∧ i < ad + n := by
  unfold hrd_reads at h
  split at h
  · rename_i hc
    have := (mem_addrRange _ _ _).1 h
    omega
  · have := (mem_addrRange _ _ _).1 h
    omega

theorem pro_reads_within (ad n t i : Nat) (h : i ∈ pro_reads ad n t) : ad ≤ i ∧ i < ad + n := by
  unfold pro_reads at h
  split at h
  · rename_i hc
    have := (mem_addrRange _ _ _).1 h
    omega
  · have := (mem_addrRange _ _ _).1 h
    omega

/-- C15 (the code departs from the claim in one case): `dissect_arp` formats
the fields sender hardware, sender protocol, target hardware, target protocol
in this order, with lengths ar_hln, ar_pln, ar_hln, ar_pln, the first at
`offset + 8` and each next one where the previous ends; each formatting call
reads only inside its field, and the tree shows each field with its range and
the formatting of its octets, except that when all four addresses go through
the generic formatter the sender hardware field shows the formatting of the
target protocol address. On `pkt_generic` it shows `DD` for the address AA. -/
theorem dissect_arp_address_fields :
    (∀ (etv : value_string) (st sa : ArpAddrStatic) (pd : Mem) (offset : Nat)
        (fd : frame_data) (t : GtkTree),
      (dissect_arp etv st pd offset fd (some t)).reads =
        addrRange offset 8 ++ (arphrdaddr_to_str sa pd (offset + 8) (read_header pd offset).ar_hln (read_header pd offset).ar_hrd).reads ++
          (arpproaddr_to_str sa pd (offset + 8 + (read_header pd offset).ar_hln) (read_header pd offset).ar_pln (read_header pd offset).ar_pro).reads ++
          (arphrdaddr_to_str sa pd (offset + 8 + (read_header pd offset).ar_hln + (read_header pd offset).ar_pln) (read_header pd offset).ar_hln (read_header pd offset).ar_hrd).reads ++
          (arpproaddr_to_str sa pd (offset + 8 + (read_header pd offset).ar_hln + (read_header pd offset).ar_pln + (read_header pd offset).ar_hln) (read_header pd offset).ar_pln (read_header pd offset).ar_pro).reads ∧
      (∀ i ∈ (arphrdaddr_to_str sa pd (offset + 8) (read_header pd offset).ar_hln (read_header pd offset).ar_hrd).reads,
        offset + 8 ≤ i ∧ i < offset + 8 + (read_header pd offset).ar_hln) ∧
      (∀ i ∈ (arpproaddr_to_str sa pd (offset + 8 + (read_header pd offset).ar_hln) (read_header pd offset).ar_pln (read_header pd offset).ar_pro).reads,
        offset + 8 + (read_header pd offset).ar_hln ≤ i ∧
          i < offset + 8 + (read_header pd offset).ar_hln + (read_header pd offset).ar_pln) ∧
      (∀ i ∈ (arphrdaddr_to_str sa pd (offset + 8 + (read_header pd offset).ar_hln + (read_header pd offset).ar_pln) (read_header pd offset).ar_hln (read_header pd offset).ar_hrd).reads,
        offset + 8 + (read_header pd offset).ar_hln + (read_header pd offset).ar_pln ≤ i ∧
          i < offset + 8 + (read_header pd offset).ar_hln + (read_header pd offset).ar_pln + (read_header pd offset).ar_hln) ∧
      (∀ i ∈ (arpproaddr_to_str sa pd (offset + 8 + (read_header pd offset).ar_hln + (read_header pd offset).ar_pln + (read_header pd offset).ar_hln) (read_header pd offset).ar_pln (read_header pd offset).ar_pro).reads,
        offset + 8 + (read_header pd offset).ar_hln + (read_header pd offset).ar_pln + (read_header pd offset).ar_hln ≤ i ∧
          i < offset + 8 + (read_header pd offset).ar_hln + (read_header pd offset).ar_pln + (read_header pd offset).ar_hln + (read_header pd offset).ar_pln) ∧
      ∃ item, (dissect_arp etv st pd offset fd (some t)).tree = some (t ++ [item]) ∧
        item.subtree.drop 5 =
          [leaf (offset + 8) (read_header pd offset).ar_hln
            ("Sender hardware address: ".toList ++
              (if typed_addrs (read_header pd offset) then (arphrdaddr_to_str sa pd (offset + 8) (read_header pd offset).ar_hln (read_header pd offset).ar_hrd).str
              else (arpproaddr_to_str sa pd (offset + 8 + (read_header pd offset).ar_hln + (read_header pd offset).ar_pln + (read_header pd offset).ar_hln) (read_header pd offset).ar_pln (read_header pd offset).ar_pro).str)),
           leaf (offset + 8 + (read_header pd offset).ar_hln) (read_header pd offset).ar_pln
            ("Sender protocol address: ".toList ++ (arpproaddr_to_str sa pd (offset + 8 + (read_header pd offset).ar_hln) (read_header pd offset).ar_pln (read_header pd offset).ar_pro).str),
           leaf (offset + 8 + (read_header pd offset).ar_hln + (read_header pd offset).ar_pln) (read_header pd offset).ar_hln
            ("Target hardware address: ".toList ++ (arphrdaddr_to_str sa pd (offset + 8 + (read_header pd offset).ar_hln + (read_header pd offset).ar_pln) (read_header pd offset).ar_hln (read_header pd offset).ar_hrd).str),
           leaf (offset + 8 + (read_header pd offset).ar_hln + (read_header pd offset).ar_pln + (read_header pd offset).ar_hln) (read_header pd offset).ar_pln
            ("Target protocol address: ".toList ++ (arpproaddr_to_str sa pd (offset + 8 + (read_header pd offset).ar_hln + (read_header pd offset).ar_pln + (read_header pd offset).ar_hln) (read_header pd offset).ar_pln (read_header pd offset).ar_pro).str)]) ∧
    ((arphrdaddr_to_str .init (memOf pkt_generic) 8 1 0).str = "AA".toList ∧
      ∃ item, (dissect_arp [] .init (memOf pkt_generic) 0 fd0 (some [])).tree = some [item] ∧
        item.subtree.drop 5 =
          [leaf 8 1 "Sender hardware address: DD".toList,
           leaf 9 1 "Sender protocol address: BB".toList,
           leaf 10 1 "Target hardware address: CC".toList,
           leaf 11 1 "Target protocol address: DD".toList]) := by
  constructor
  · intro etv st sa pd offset fd t
    refine ⟨?_, ?_, ?_, ?_, ?_, ?_⟩
    · rw [dissect_arp_reads]
      simp only [arphrdaddr_to_str_reads, arpproaddr_to_str_reads]
    · intro i hi
      rw [arphrdaddr_to_str_reads] at hi
      exact hrd_reads_within _ _ _ _ hi
    · intro i hi
      rw [arpproaddr_to_str_reads] at hi
      exact pro_reads_within _ _ _ _ hi
    · intro i hi
      rw [arphrdaddr_to_str_reads] at hi
      exact hrd_reads_within _ _ _ _ hi
    · intro i hi
      rw [arpproaddr_to_str_reads] at hi
      exact pro_reads_within _ _ _ _ hi
    · rw [dissect_arp_tree]
      refine ⟨_, rfl, ?_⟩
      simp only [arp_item, proto_item.subtree, List.drop, arphrdaddr_to_str_str,
        arpproaddr_to_str_str, sha_shown, hrd_text, pro_text]
  · exact ⟨rfl, _, rfl, rfl⟩

/-! ## Claims on the generic formatter and on determinism -/

theorem hexVal_hexAt (i : Nat) (h : i < 16) : hexVal (hexAt i) = i := by
  have : ∀ j : Fin 16, hexVal (hexAt j.val) = j.val := by decide
  exact this ⟨i, h⟩

theorem unhexPairs_hexPairs (bs : List Nat) (hb : ∀ b ∈ bs, b < 256) :
    unhexPairs (hexPairs bs) = bs := by
  induction bs with
  | nil => rfl
  | cons b bs ih =>
    have hb0 : b < 256 := hb b (List.mem_cons_self _ _)
    have h1 : hexVal (hexAt (b / 16)) = b / 16 := hexVal_hexAt _ (by omega)
    have h2 : hexVal (hexAt (b % 16)) = b % 16 := hexVal_hexAt _ (by omega)
    simp only [hexPairs, unhexPairs, h1, h2, ih (fun x hx => hb x (List.mem_cons_of_mem _ hx))]
    congr 1
    omega

/-- C16: `arpaddr_to_str` is total and, for every length, returns at most 19
characters: at most 16 hex characters and an optional 3-character ellipsis.
With the terminating NUL the string fits the buffer of
`MAX_ADDR_STR_LEN + 3 + 1` = 20 characters it is written to, and the two
other buffers are left as they were. -/
theorem arpaddr_to_str_bounded (st : ArpAddrStatic) (pd : Mem) (ad n : Nat) :
    (arpaddr_to_str st pd ad n).str.length ≤ 19 ∧
    (arpaddr_to_str st pd ad n).str.length + 1 ≤ MAX_ADDR_STR_LEN + 3 + 1 ∧
    (MAX_ADDR_STR_LEN + 3 + 1 = 20) ∧
    (∃ h e : CStr, (arpaddr_to_str st pd ad n).str = h ++ e ∧ h.length ≤ 16 ∧
      (∀ c ∈ h, c ∈ hex) ∧ (e = [] ∨ e = ['.', '.', '.'])) ∧
    (arpaddr_to_str st pd ad n).st.get (nextBuf st.cur) = (arpaddr_to_str st pd ad n).str ∧
    (∀ j, j ≠ nextBuf st.cur → (arpaddr_to_str st pd ad n).st.get j = st.get j) := by
  have hlen := arpaddr_chars_length pd ad n
  rw [arpaddr_to_str_str]
  refine ⟨?_, ?_, rfl, ?_, ?_, ?_⟩
  · split at hlen <;> omega
  · simp only [MAX_ADDR_STR_LEN]
    split at hlen <;> omega
  · refine ⟨hexPairs (bytesAt pd ad (min n 8)), if 8 < n then ['.', '.', '.'] else [], ?_, ?_,
      hexPairs_mem _ (bytesAt_lt _ _ _), ?_⟩
    · rw [arpaddr_chars_eq]
    · rw [length_hexPairs, length_bytesAt]
      omega
    · by_cases h8 : 8 < n
      · exact Or.inr (if_pos h8)
      · exact Or.inl (if_neg h8)
  · simp [arpaddr_to_str, ArpAddrStatic.get_put]
  · intro j hj
    simp only [arpaddr_to_str]
    exact ArpAddrStatic.get_put_ne _ _ _ _ hj

/-- C17: the hex part of the generic rendering is the concatenation, without
separators and in buffer order, of one pair per rendered octet (the first
`min n 8` octets), each pair being the uppercase digit `hex[b >> 4]` followed
by `hex[b & 0xF]`; reading the hex part back as base-16 pairs gives exactly
the rendered octets. -/
theorem arpaddr_to_str_hex_roundtrip (st : ArpAddrStatic) (pd : Mem) (ad n : Nat) :
    (arpaddr_to_str st pd ad n).str =
      hexPairs (bytesAt pd ad (min n 8)) ++ (if 8 < n then ['.', '.', '.'] else []) ∧
    hexPairs (bytesAt pd ad (min n 8)) =
      (bytesAt pd ad (min n 8)).flatMap (fun b => [hexAt (b / 16), hexAt (b % 16)]) ∧
    (∀ c ∈ hexPairs (bytesAt pd ad (min n 8)), c ∈ hex) ∧
    unhexPairs (hexPairs (bytesAt pd ad (min n 8))) = bytesAt pd ad (min n 8) := by
  refine ⟨?_, ?_, hexPairs_mem _ (bytesAt_lt _ _ _), unhexPairs_hexPairs _ (bytesAt_lt _ _ _)⟩
  · rw [arpaddr_to_str_str, arpaddr_chars_eq]
  · generalize bytesAt pd ad (min n 8) = bs
    induction bs with
    | nil => rfl
    | cons b bs ih => simp [hexPairs, ih]

/-- C18: the columns, the tree and the read trace produced by `dissect_arp` do
not depend on the state of the static buffers at entry; in particular a
second run on the same input, started in the state the first run left, gives
the same columns and the same tree. -/
theorem dissect_arp_deterministic (etv : value_string) (st st2 : ArpAddrStatic) (pd : Mem)
    (offset : Nat) (fd : frame_data) (tree : Option GtkTree) :
    ((dissect_arp etv st pd offset fd tree).fd = (dissect_arp etv st2 pd offset fd tree).fd ∧
      (dissect_arp etv st pd offset fd tree).tree =
        (dissect_arp etv st2 pd offset fd tree).tree ∧
      (dissect_arp etv st pd offset fd tree).reads =
        (dissect_arp etv st2 pd offset fd tree).reads) ∧
    ((dissect_arp etv (dissect_arp etv st pd offset fd tree).st pd offset fd tree).fd =
        (dissect_arp etv st pd offset fd tree).fd ∧
      (dissect_arp etv (dissect_arp etv st pd offset fd tree).st pd offset fd tree).tree =
        (dissect_arp etv st pd offset fd tree).tree) := by
  refine ⟨⟨?_, ?_, ?_⟩, ?_, ?_⟩
  · rw [dissect_arp_fd, dissect_arp_fd]
  · rw [dissect_arp_tree, dissect_arp_tree]
  · rw [dissect_arp_reads, dissect_arp_reads]
  · rw [dissect_arp_fd, dissect_arp_fd]
  · rw [dissect_arp_tree, dissect_arp_tree]

end Arp

namespace ConversationDataModel

/-- C19: with ports hidden, `headerData` and `data` translate every visible
column `s ≥ 0` to the same logical column, which is never the source or the
destination port column: 0 goes to 0, 1 to 2 and `s ≥ 2` to `s + 2`; a column
below `columnCount` lands below `CONV_NUM_COLUMNS`. -/
theorem headerColumn_eq_dataColumn (s : Int) (hs : 0 ≤ s) :
    headerColumn true s = dataColumn true s ∧
    headerColumn true s ≠ CONV_COLUMN_SRC_PORT ∧
    headerColumn true s ≠ CONV_COLUMN_DST_PORT ∧
    headerColumn true s = (if s = 0 then 0 else if s = 1 then 2 else s + 2) ∧
    (s < columnCount true → headerColumn true s < CONV_NUM_COLUMNS) := by
  simp only [headerColumn, dataColumn, columnCount, CONV_COLUMN_SRC_ADDR, CONV_COLUMN_SRC_PORT,
    CONV_COLUMN_DST_ADDR, CONV_COLUMN_DST_PORT, CONV_NUM_COLUMNS, if_true]
  by_cases h0 : s = 0
  · subst h0
    decide
  · by_cases h1 : s = 1
    · subst h1
      decide
    · have h2 : 2 ≤ s := by omega
      have a1 : s > 0 := by omega
      have a2 : s + 1 > 2 := by omega
      have a3 : s ≥ 1 := by omega
      have a4 : s + 1 ≥ 3 := by omega
      simp only [a1, a2, a3, a4, h0, h1, if_true, if_false]
      refine ⟨trivial, by omega, by omega, by omega, by omega⟩

/-- C19 witness: the visible column 1 is the logical column 2 for both methods. -/
theorem headerColumn_eq_dataColumn_witness :
    headerColumn true 1 = dataColumn true 1 ∧
    headerColumn true 1 ≠ CONV_COLUMN_SRC_PORT ∧
    headerColumn true 1 ≠ CONV_COLUMN_DST_PORT ∧
    headerColumn true 1 = (if (1 : Int) = 0 then 0 else if (1 : Int) = 1 then 2 else 1 + 2) ∧
    ((1 : Int) < columnCount true → headerColumn true 1 < CONV_NUM_COLUMNS) :=
  headerColumn_eq_dataColumn 1 (by decide)

/-- C20 (the code departs from the claim): in `headerData` with the display
role, columns 8 and 9 both carry the title `Packets B → A`, although `data`
shows received frames in column 8 and received bytes in column 9 (and column
7, bytes from A to B, is titled `Bytes A → B`); every other pair of the
fourteen columns has distinct titles. -/
theorem headerData_titles_8_9_coincide (absoluteTime : Bool) :
    headerData false absoluteTime 8 .Horizontal .DisplayRole = .text "Packets B → A" ∧
    headerData false absoluteTime 9 .Horizontal .DisplayRole = .text "Packets B → A" ∧
    headerData false absoluteTime 7 .Horizontal .DisplayRole = .text "Bytes A → B" ∧
    dataQuantity (dataColumn false 8) = some .rx_frames ∧
    dataQuantity (dataColumn false 9) = some .rx_bytes ∧
    (∀ i j : Fin 14, i ≠ j →
      (headerData false absoluteTime i.val .Horizontal .DisplayRole =
          headerData false absoluteTime j.val .Horizontal .DisplayRole ↔
        (i.val = 8 ∧ j.val = 9) ∨ (i.val = 9 ∧ j.val = 8))) := by
  cases absoluteTime <;> decide

end ConversationDataModel

namespace ConversationDataModel

/-! ## `updateData` computes the span of the rows -/

/-- After the first row the loop keeps a running minimum and maximum: the
result bounds the incoming values and every remaining row, and each of its
members is either the incoming value or attained by a remaining row. -/
theorem updateData_loop_spec {α : Type} [LinearOrder α] (rows : List (conv_item_t α)) :
    ∀ (row : Nat) (m : RelSpan α), row ≠ 0 →
      ((updateData_loop row rows m)._minRelStartTime ≤ m._minRelStartTime ∧
        (∀ r ∈ rows, (updateData_loop row rows m)._minRelStartTime ≤ r.start_time) ∧
        ((updateData_loop row rows m)._minRelStartTime = m._minRelStartTime ∨
          ∃ r ∈ rows, (updateData_loop row rows m)._minRelStartTime = r.start_time)) ∧
      (m._maxRelStopTime ≤ (updateData_loop row rows m)._maxRelStopTime ∧
        (∀ r ∈ rows, r.stop_time ≤ (updateData_loop row rows m)._maxRelStopTime) ∧
        ((updateData_loop row rows m)._maxRelStopTime = m._maxRelStopTime ∨
          ∃ r ∈ rows, (updateData_loop row rows m)._maxRelStopTime = r.stop_time)) := by
  induction rows with
  | nil =>
    intro row m _
    simp [updateData_loop]
  | cons c rows ih =>
    intro row m hrow
    have h := ih (row + 1)
      ⟨if c.start_time < m._minRelStartTime then c.start_time else m._minRelStartTime,
        if c.stop_time > m._maxRelStopTime then c.stop_time else m._maxRelStopTime⟩
      (Nat.succ_ne_zero row)
    simp only [updateData_loop, if_neg hrow]
    obtain ⟨⟨h1, h2, h3⟩, ⟨k1, k2, k3⟩⟩ := h
    simp only at h1 h3 k1 k3
    refine ⟨⟨?_, ?_, ?_⟩, ⟨?_, ?_, ?_⟩⟩
    · refine le_trans h1 ?_
      split
      · exact le_of_lt (by assumption)
      · exact le_refl _
    · intro r hr
      rcases List.mem_cons.1 hr with rfl | hr
      · refine le_trans h1 ?_
        split
        · exact le_refl _
        · exact le_of_not_lt (by assumption)
      · exact h2 r hr
    · rcases h3 with h3 | ⟨r, hr, h3⟩
      · by_cases hc : c.start_time < m._minRelStartTime
        · exact Or.inr ⟨c, List.mem_cons_self _ _, h3.trans (if_pos hc)⟩
        · exact Or.inl (h3.trans (if_neg hc))
      · exact Or.inr ⟨r, List.mem_cons_of_mem _ hr, h3⟩
    · refine le_trans ?_ k1
      split
      · exact le_of_lt (by assumption)
      · exact le_refl _
    · intro r hr
      rcases List.mem_cons.1 hr with rfl | hr
      · refine le_trans ?_ k1
        split
        · exact le_refl _
        · exact le_of_not_lt (by assumption)
      · exact k2 r hr
    · rcases k3 with k3 | ⟨r, hr, k3⟩
      · by_cases hc : c.stop_time > m._maxRelStopTime
        · exact Or.inr ⟨c, List.mem_cons_self _ _, k3.trans (if_pos hc)⟩
        · exact Or.inl (k3.trans (if_neg hc))
      · exact Or.inr ⟨r, List.mem_cons_of_mem _ hr, k3⟩

/-- On a non-empty list both members are attained and bound every row. -/
theorem updateData_attained {α : Type} [LinearOrder α] [Zero α] (rows : List (conv_item_t α))
    (hne : rows ≠ []) :
    ((∃ r ∈ rows, (updateData rows)._minRelStartTime = r.start_time) ∧
      ∀ r ∈ rows, (updateData rows)._minRelStartTime ≤ r.start_time) ∧
    ((∃ r ∈ rows, (updateData rows)._maxRelStopTime = r.stop_time) ∧
      ∀ r ∈ rows, r.stop_time ≤ (updateData rows)._maxRelStopTime) := by
  cases rows with
  | nil => exact absurd rfl hne
  | cons c rows =>
    have h := updateData_loop_spec rows 1 ⟨c.start_time, c.stop_time⟩ (by decide)
    have hu : updateData (c :: rows) = updateData_loop 1 rows ⟨c.start_time, c.stop_time⟩ := by
      simp [updateData, updateData_loop]
    rw [hu]
    obtain ⟨⟨h1, h2, h3⟩, ⟨k1, k2, k3⟩⟩ := h
    simp only at h1 h3 k1 k3
    refine ⟨⟨?_, ?_⟩, ⟨?_, ?_⟩⟩
    · rcases h3 with h3 | ⟨r, hr, h3⟩
      · exact ⟨c, List.mem_cons_self _ _, h3⟩
      · exact ⟨r, List.mem_cons_of_mem _ hr, h3⟩
    · intro r hr
      rcases List.mem_cons.1 hr with rfl | hr
      · exact h1
      · exact h2 r hr
    · rcases k3 with k3 | ⟨r, hr, k3⟩
      · exact ⟨c, List.mem_cons_self _ _, k3⟩
      · exact ⟨r, List.mem_cons_of_mem _ hr, k3⟩
    · intro r hr
      rcases List.mem_cons.1 hr with rfl | hr
      · exact k1
      · exact k2 r hr

/-- C22: after `updateData`, on an empty list both members are 0; on a
non-empty list `_minRelStartTime` is the minimum of the rows' start times and
`_maxRelStopTime` the maximum of their stop times (each attained by a row and
bounding every row); the result is the same for every reordering of the
rows. -/
theorem updateData_min_max {α : Type} [LinearOrder α] [Zero α] (rows : List (conv_item_t α)) :
    ((updateData ([] : List (conv_item_t α)))._minRelStartTime = 0 ∧
      (updateData ([] : List (conv_item_t α)))._maxRelStopTime = 0) ∧
    (rows ≠ [] →
      ((∃ r ∈ rows, (updateData rows)._minRelStartTime = r.start_time) ∧
        ∀ r ∈ rows, (updateData rows)._minRelStartTime ≤ r.start_time) ∧
      ((∃ r ∈ rows, (updateData rows)._maxRelStopTime = r.stop_time) ∧
        ∀ r ∈ rows, r.stop_time ≤ (updateData rows)._maxRelStopTime)) ∧
    (∀ rows2 : List (conv_item_t α), rows2.Perm rows →
      (updateData rows2)._minRelStartTime = (updateData rows)._minRelStartTime ∧
      (updateData rows2)._maxRelStopTime = (updateData rows)._maxRelStopTime) := by
  refine ⟨⟨rfl, rfl⟩, updateData_attained rows, ?_⟩
  intro rows2 hperm
  by_cases hne : rows = []
  · subst hne
    rw [List.Perm.eq_nil hperm]
    exact ⟨rfl, rfl⟩
  · have hne2 : rows2 ≠ [] := by
      intro h2
      subst h2
      exact hne (List.Perm.eq_nil hperm.symm)
    obtain ⟨⟨⟨a, ha, hae⟩, hmin⟩, ⟨⟨b, hb, hbe⟩, hmax⟩⟩ := updateData_attained rows hne
    obtain ⟨⟨⟨a2, ha2, hae2⟩, hmin2⟩, ⟨⟨b2, hb2, hbe2⟩, hmax2⟩⟩ := updateData_attained rows2 hne2
    constructor
    · apply le_antisymm
      · rw [hae]
        exact hmin2 a (hperm.mem_iff.2 ha)
      · rw [hae2]
        exact hmin a2 (hperm.mem_iff.1 ha2)
    · apply le_antisymm
      · rw [hbe2]
        exact hmax b2 (hperm.mem_iff.1 hb2)
      · rw [hbe]
        exact hmax2 b (hperm.mem_iff.2 hb)

end ConversationDataModel

namespace FilterSaveDlg

theorem Inv_init : Inv State.init := by
  simp [Inv, State.init]

theorem Inv_window_destroy (s : State) (w : Nat) (h : Inv s) : Inv (window_destroy s w) := by
  unfold window_destroy
  split
  · rename_i hw
    obtain ⟨h1, h2⟩ := h
    cases hp : s.filter_save_frame_w with
    | none =>
      rw [hp] at h1
      rw [h1] at hw
      simp at hw
    | some x =>
      rw [hp] at h1
      have hx : w = x := by
        rw [h1] at hw
        simpa using hw
      subst hx
      simp [Inv, filter_save_frame_destroy_cb, h1]
  · exact h

theorem Inv_save_dlg (s : State) (h : Inv s) : Inv (filter_expression_save_dlg s) := by
  obtain ⟨h1, h2⟩ := h
  unfold filter_expression_save_dlg
  cases hp : s.filter_save_frame_w with
  | none =>
    rw [hp] at h1
    simp [Inv, h1]
  | some x =>
    exact ⟨by simpa [hp] using h1, h2⟩

theorem Inv_step (s : State) (e : Event) (h : Inv s) : Inv (step s e) := by
  cases e with
  | save_dlg => exact Inv_save_dlg s h
  | destroy w => exact Inv_window_destroy s w h
  | ok_clicked w added =>
    cases added
    · exact h
    · exact Inv_window_destroy s w h
  | cancel_clicked w => exact Inv_window_destroy s w h

theorem Inv_foldl (evs : List Event) : ∀ s, Inv s → Inv (evs.foldl step s) := by
  induction evs with
  | nil => intro s h; exact h
  | cons e evs ih => intro s h; exact ih _ (Inv_step s e h)

/-- C21: after every sequence of events at most one "Filter Save" window
exists, and it is the one the static pointer tracks. In such a state a call of
`filter_expression_save_dlg` with a non-NULL pointer creates no window, leaves
the pointer unchanged and reactivates the existing window; with a NULL pointer
it creates exactly one window, a new one, and stores it in the pointer; and
destroying the window runs the destroy callback, which resets the pointer to
NULL. -/
theorem filter_save_at_most_one_window (evs : List Event) :
    ((run evs).windows.length ≤ 1 ∧
      (run evs).windows = (run evs).filter_save_frame_w.toList) ∧
    (∀ w, (run evs).filter_save_frame_w = some w →
      (filter_expression_save_dlg (run evs)).windows = (run evs).windows ∧
      (filter_expression_save_dlg (run evs)).filter_save_frame_w = some w ∧
      (filter_expression_save_dlg (run evs)).next_w = (run evs).next_w ∧
      (filter_expression_save_dlg (run evs)).reactivated = (run evs).reactivated ++ [w]) ∧
    ((run evs).filter_save_frame_w = none →
      (run evs).windows = [] ∧
      (run evs).next_w ∉ (run evs).windows ∧
      (filter_expression_save_dlg (run evs)).windows = [(run evs).next_w] ∧
      (filter_expression_save_dlg (run evs)).filter_save_frame_w = some (run evs).next_w) ∧
    (∀ s : State, (filter_save_frame_destroy_cb s).filter_save_frame_w = none) ∧
    (∀ w ∈ (run evs).windows,
      (window_destroy (run evs) w).windows = [] ∧
      (window_destroy (run evs) w).filter_save_frame_w = none) := by
  have hinv : Inv (run evs) := Inv_foldl evs _ Inv_init
  obtain ⟨h1, h2⟩ := hinv
  refine ⟨⟨?_, h1⟩, ?_, ?_, fun s => rfl, ?_⟩
  · rw [h1]
    cases (run evs).filter_save_frame_w <;> simp
  · intro w hw
    simp [filter_expression_save_dlg, hw]
  · intro hnone
    have hw : (run evs).windows = [] := by rw [h1, hnone]; rfl
    simp [filter_expression_save_dlg, hnone, hw]
  · intro w hw
    have hi := Inv_window_destroy (run evs) w ⟨h1, h2⟩
    have hp : (window_destroy (run evs) w).filter_save_frame_w = none := by
      simp [window_destroy, hw, filter_save_frame_destroy_cb]
    refine ⟨?_, hp⟩
    rw [hi.1, hp]
    rfl

end FilterSaveDlg
